import Mathlib

/-!
# Leader resource tracker of glow: topology tree and aggregation

A shallow embedding of `resource/topology.go` and
`resource/service_discovery/leader/leader_resources.go`.

Modelling conventions

* A Go `map[string]*T` is an `AList` keyed by `String`: a finite map with
  unique keys, `lookup` for `m[k]`, `insert` for `m[k] = v`, `erase` for
  `delete(m, k)`.  The iteration order of a Go map is unspecified and no
  definition below depends on the order of the entries.
* The maps of the tree are the fields `agents`, `racks` and `dataCenters` of
  `topology.go`; `leader_resources.go` reads and writes the same maps under
  the names `Agents`, `Racks` and `DataCenters`.
* Pointers are replaced by values.  A container that the Go code mutates
  through a pointer held in a map is written back into the map under the
  same key.  A report handed to `UpdateAgentInformation` is taken by value:
  it is not aliased with a stored entry and not mutated by its caller later.
* `time.Now()` is an explicit argument, a timestamp of type `Time`.
* `EventChan` is the trace of the values sent on the channel, oldest first.
  Blocking of a send on the full channel is not represented.
* `EvictionQueue` is the list of enqueued reports in enqueue order; the
  order in which `util.PriorityQueue` hands them out is not fixed here.
* The mutex `lock` only serialises the calls; a call is one atomic step.
-/

namespace Glow

/-- A Go map with string keys. -/
abbrev GoMap (V : Type) : Type := AList (fun _ : String => V)

/-- Timestamps, standing for `time.Time`. -/
abbrev Time : Type := Int

/-- Modelled from the spec: the type `Location` and its method `URL` are
declared in a file outside the sources at hand.  The spec gives the record
`{datacenter, rack, address}` with the address the unique key in a rack. -/
structure Location where
  DataCenter : String
  Rack : String
  Address : String
  deriving DecidableEq, Repr

/-- Modelled from the spec: the endpoint address of a location, the key of
the agent inside its rack. -/
def Location.URL (loc : Location) : String := loc.Address

section Model

/- Modelled from the spec: `ComputeResource` is declared in a file outside the
sources at hand.  It is the parameter `R`, an exact additive group, with
`Plus`, `Minus` and `IsZero` its addition, subtraction and test for zero. -/
variable {R : Type} [AddCommGroup R] [DecidableEq R]

/-- Modelled from the spec: `ComputeResource.Plus`, exact addition. -/
@[reducible] def Plus (a b : R) : R := a + b

/-- Modelled from the spec: `ComputeResource.Minus`, exact subtraction. -/
@[reducible] def Minus (a b : R) : R := a - b

/-- Modelled from the spec: `ComputeResource.IsZero`, the test for zero. -/
@[reducible] def IsZero (a : R) : Bool := decide (a = 0)

/-- `resource.AgentInformation` (topology.go, lines 8-13). -/
structure AgentInformation (R : Type) where
  Location : Location
  LastHeartBeat : Time
  Resource : R
  Allocated : R
  deriving DecidableEq

/-- `resource.Rack` (topology.go, lines 15-21). -/
structure Rack (R : Type) where
  Name : String
  agents : GoMap (AgentInformation R)
  Resource : R
  Allocated : R

/-- `resource.DataCenter` (topology.go, lines 23-29). -/
structure DataCenter (R : Type) where
  Name : String
  racks : GoMap (Rack R)
  Resource : R
  Allocated : R

/-- `resource.Topology` (topology.go, lines 31-36). -/
structure Topology (R : Type) where
  Resource : R
  Allocated : R
  dataCenters : GoMap (DataCenter R)

/-- `leader.ResourceUpdateEvent` (leader_resources.go, lines 14-17). -/
structure ResourceUpdateEvent where
  DataCenter : String
  Rack : String
  deriving DecidableEq, Repr

/-- `leader.LeaderResource` (leader_resources.go, lines 19-24). -/
structure LeaderResource (R : Type) where
  Topology : Topology R
  EventChan : List ResourceUpdateEvent
  EvictionQueue : List (AgentInformation R)

/-- `NewLeaderResource` (leader_resources.go, lines 26-42): an empty
topology with zero sums, nothing sent, nothing enqueued. -/
def NewLeaderResource : LeaderResource R :=
  { Topology := { Resource := 0, Allocated := 0, dataCenters := ∅ }
    EventChan := []
    EvictionQueue := [] }

/-- The datacenter the update works on (lines 48-55): the stored one, or a
fresh empty one named after the location. -/
def workingDataCenter (l : LeaderResource R) (ai : AgentInformation R) : DataCenter R :=
  match l.Topology.dataCenters.lookup ai.Location.DataCenter with
  | some dc => dc
  | none => { Name := ai.Location.DataCenter, racks := ∅, Resource := 0, Allocated := 0 }

/-- The rack the update works on (lines 57-64): the stored one, or a fresh
empty one named after the location. -/
def workingRack (dc : DataCenter R) (ai : AgentInformation R) : Rack R :=
  match dc.racks.lookup ai.Location.Rack with
  | some rack => rack
  | none => { Name := ai.Location.Rack, agents := ∅, Resource := 0, Allocated := 0 }

/-- The value of `deltaResource` after lines 67-70. -/
def deltaResourceOf (old : Option (AgentInformation R)) (ai : AgentInformation R) : R :=
  match old with
  | some oldInfo => Minus ai.Resource oldInfo.Resource
  | none => ai.Resource

/-- The entry of the rack map under the agent's address after lines 69-80:
the old entry with its heartbeat refreshed and, when the delta is not zero,
its `Resource` replaced; or the report itself, stamped with the time. -/
def storedEntry (old : Option (AgentInformation R)) (ai : AgentInformation R) (now : Time) :
    AgentInformation R :=
  match old with
  | some oldInfo =>
    let oldInfo1 : AgentInformation R :=
      if !IsZero (deltaResourceOf old ai) then { oldInfo with Resource := ai.Resource } else oldInfo
    { oldInfo1 with LastHeartBeat := now }
  | none => { ai with LastHeartBeat := now }

/-- The report `ai` as it is when handed to `Enqueue` (lines 75 and 79): for a
known agent the report as received, for a new agent the report already
stamped with the time. -/
def enqueuedEntry (old : Option (AgentInformation R)) (ai : AgentInformation R) (now : Time) :
    AgentInformation R :=
  match old with
  | some _ => ai
  | none => { ai with LastHeartBeat := now }

/-- The effect of lines 82-89 on one cached `Resource` sum. -/
def bumpResource (delta : R) (x : R) : R :=
  if !IsZero delta then Plus x delta else x

/-- The effect of lines 91-98 on one cached `Allocated` sum. -/
def bumpAllocated (old : Option (AgentInformation R)) (ai : AgentInformation R) (x : R) : R :=
  match old with
  | some oldInfo =>
    let deltaAllocated := Minus ai.Allocated oldInfo.Allocated
    if !IsZero deltaAllocated then Plus x deltaAllocated else x
  | none => x

/-- `UpdateAgentInformation` (leader_resources.go, lines 44-100), called at
time `now`. -/
def UpdateAgentInformation (l : LeaderResource R) (ai : AgentInformation R) (now : Time) :
    LeaderResource R :=
  let dc := workingDataCenter l ai
  let rack := workingRack dc ai
  let old := rack.agents.lookup ai.Location.URL
  let deltaResource := deltaResourceOf old ai
  let rack1 : Rack R :=
    { rack with
      agents := rack.agents.insert ai.Location.URL (storedEntry old ai now)
      Resource := bumpResource deltaResource rack.Resource
      Allocated := bumpAllocated old ai rack.Allocated }
  let dc1 : DataCenter R :=
    { dc with
      racks := dc.racks.insert ai.Location.Rack rack1
      Resource := bumpResource deltaResource dc.Resource
      Allocated := bumpAllocated old ai dc.Allocated }
  { Topology :=
      { Resource := bumpResource deltaResource l.Topology.Resource
        Allocated := bumpAllocated old ai l.Topology.Allocated
        dataCenters := l.Topology.dataCenters.insert ai.Location.DataCenter dc1 }
    EventChan :=
      if !IsZero deltaResource then
        l.EventChan ++ [{ DataCenter := ai.Location.DataCenter, Rack := ai.Location.Rack }]
      else l.EventChan
    EvictionQueue := l.EvictionQueue ++ [enqueuedEntry old ai now] }

/-- `deleteAgentInformation` (leader_resources.go, lines 102-137). -/
def deleteAgentInformation (l : LeaderResource R) (ai : AgentInformation R) : LeaderResource R :=
  match l.Topology.dataCenters.lookup ai.Location.DataCenter with
  | none => l
  | some dc =>
    match dc.racks.lookup ai.Location.Rack with
    | none => l
    | some rack =>
      match rack.agents.lookup ai.Location.URL with
      | none => l
      | some oldInfo =>
        let deltaResource := oldInfo.Resource
        let deltaAllocated := oldInfo.Allocated
        if !IsZero deltaResource then
          let rack1 : Rack R :=
            { rack with
              agents := rack.agents.erase ai.Location.URL
              Resource := Minus rack.Resource deltaResource
              Allocated := Minus rack.Allocated deltaAllocated }
          let dc1 : DataCenter R :=
            { dc with
              racks := dc.racks.insert ai.Location.Rack rack1
              Resource := Minus dc.Resource deltaResource
              Allocated := Minus dc.Allocated deltaAllocated }
          { l with
            Topology :=
              { Resource := Minus l.Topology.Resource deltaResource
                Allocated := Minus l.Topology.Allocated deltaAllocated
                dataCenters := l.Topology.dataCenters.insert ai.Location.DataCenter dc1 }
            EventChan :=
              l.EventChan ++ [{ DataCenter := ai.Location.DataCenter, Rack := ai.Location.Rack }] }
        else l

/-- `findAgentInformation` (leader_resources.go, lines 139-152); `none`
stands for `found = false`. -/
def findAgentInformation (l : LeaderResource R) (location : Location) :
    Option (AgentInformation R) :=
  match l.Topology.dataCenters.lookup location.DataCenter with
  | none => none
  | some d =>
    match d.racks.lookup location.Rack with
    | none => none
    | some r => r.agents.lookup location.URL

/-! ### Calls and runs -/

/-- One call on the tracker: an update at a given time, or a deletion. -/
inductive Call (R : Type) where
  | update (ai : AgentInformation R) (now : Time)
  | delete (ai : AgentInformation R)

/-- The tracker after one call. -/
def Call.apply (l : LeaderResource R) : Call R → LeaderResource R
  | Call.update ai now => UpdateAgentInformation l ai now
  | Call.delete ai => deleteAgentInformation l ai

/-- The tracker after a finite sequence of calls, first call first. -/
def run (l : LeaderResource R) (calls : List (Call R)) : LeaderResource R :=
  calls.foldl Call.apply l

/-! ### Sums over the stored agents -/

/-- The sum of `f` over the values of a map. -/
def sumValues {V : Type} (f : V → R) (m : GoMap V) : R :=
  (m.entries.map fun e => f e.2).sum

/-- The sum of `Resource` over the agents stored in a rack. -/
def agentsResource (rack : Rack R) : R :=
  sumValues AgentInformation.Resource rack.agents

/-- The sum of `Resource` over the agents stored in the racks of a datacenter. -/
def racksAgentsResource (dc : DataCenter R) : R :=
  sumValues agentsResource dc.racks

/-- The sum of `Resource` over all agents stored in the topology. -/
def topologyAgentsResource (t : Topology R) : R :=
  sumValues racksAgentsResource t.dataCenters

/-- The sum of `Allocated` over the agents stored in a rack. -/
def agentsAllocated (rack : Rack R) : R :=
  sumValues AgentInformation.Allocated rack.agents

/-- The sum of `Allocated` over the agents stored in the racks of a datacenter. -/
def racksAgentsAllocated (dc : DataCenter R) : R :=
  sumValues agentsAllocated dc.racks

/-- The sum of `Allocated` over all agents stored in the topology. -/
def topologyAgentsAllocated (t : Topology R) : R :=
  sumValues racksAgentsAllocated t.dataCenters

/-- A datacenter whose cached `Resource` and those of its racks agree with
the stored agents. -/
def DataCenter.ResourceAggregated (dc : DataCenter R) : Prop :=
  dc.Resource = racksAgentsResource dc ∧
    ∀ r ∈ dc.racks.entries, r.2.Resource = agentsResource r.2

/-- The aggregation invariant for `Resource`: every cached sum, at the rack,
the datacenter and the topology, is the sum over the agents stored below. -/
def ResourceAggregated (t : Topology R) : Prop :=
  t.Resource = topologyAgentsResource t ∧
    ∀ d ∈ t.dataCenters.entries, d.2.ResourceAggregated

/-- A datacenter whose cached `Allocated` and those of its racks agree with
the stored agents. -/
def DataCenter.AllocatedAggregated (dc : DataCenter R) : Prop :=
  dc.Allocated = racksAgentsAllocated dc ∧
    ∀ r ∈ dc.racks.entries, r.2.Allocated = agentsAllocated r.2

/-- The aggregation invariant for `Allocated`. -/
def AllocatedAggregated (t : Topology R) : Prop :=
  t.Allocated = topologyAgentsAllocated t ∧
    ∀ d ∈ t.dataCenters.entries, d.2.AllocatedAggregated

instance (dc : DataCenter R) : Decidable dc.ResourceAggregated := by
  unfold DataCenter.ResourceAggregated; infer_instance

instance (t : Topology R) : Decidable (ResourceAggregated t) := by
  unfold ResourceAggregated; infer_instance

instance (dc : DataCenter R) : Decidable dc.AllocatedAggregated := by
  unfold DataCenter.AllocatedAggregated; infer_instance

instance (t : Topology R) : Decidable (AllocatedAggregated t) := by
  unfold AllocatedAggregated; infer_instance

/-! ### Reading a location -/

/-- The datacenter stored under the name of a location. -/
def dataCenterAt (l : LeaderResource R) (location : Location) : Option (DataCenter R) :=
  l.Topology.dataCenters.lookup location.DataCenter

/-- The rack stored under the datacenter and rack names of a location. -/
def rackAt (l : LeaderResource R) (location : Location) : Option (Rack R) :=
  match dataCenterAt l location with
  | none => none
  | some d => d.racks.lookup location.Rack

/-- The cached `Resource` of the rack of a location; zero when the rack is
not there yet, as for a freshly created rack. -/
def rackResourceAt (l : LeaderResource R) (location : Location) : R :=
  match rackAt l location with
  | some r => r.Resource
  | none => 0

/-- The cached `Resource` of the datacenter of a location; zero when the
datacenter is not there yet, as for a freshly created one. -/
def dataCenterResourceAt (l : LeaderResource R) (location : Location) : R :=
  match dataCenterAt l location with
  | some d => d.Resource
  | none => 0

/-- The cached `Allocated` of the rack of a location; zero when the rack is
not there. -/
def rackAllocatedAt (l : LeaderResource R) (location : Location) : R :=
  match rackAt l location with
  | some r => r.Allocated
  | none => 0

/-- The cached `Allocated` of the datacenter of a location; zero when the
datacenter is not there. -/
def dataCenterAllocatedAt (l : LeaderResource R) (location : Location) : R :=
  match dataCenterAt l location with
  | some d => d.Allocated
  | none => 0

/-- The event both mutations send for the rack of a report. -/
def eventOf (ai : AgentInformation R) : ResourceUpdateEvent :=
  { DataCenter := ai.Location.DataCenter, Rack := ai.Location.Rack }

end Model

/-! ### The accessors of the topology tree (topology.go)

The per-level `RWMutex` only serialises the accessors.  A method that reads
is a function of its receiver: it assigns to none of the receiver's fields.
A method that writes returns the receiver after the call. -/

section TopologyTree

variable {R : Type} [AddCommGroup R]

/-- `NewTopology` (topology.go, lines 38-42). -/
def NewTopology : Topology R :=
  { Resource := 0, Allocated := 0, dataCenters := ∅ }

/-- `NewDataCenter` (topology.go, lines 44-49). -/
def NewDataCenter (name : String) : DataCenter R :=
  { Name := name, racks := ∅, Resource := 0, Allocated := 0 }

/-- `NewRack` (topology.go, lines 51-56). -/
def NewRack (name : String) : Rack R :=
  { Name := name, agents := ∅, Resource := 0, Allocated := 0 }

/-- The number of keys of a Go map, `len(m)`. -/
def GoMap.len {V : Type} (m : GoMap V) : Nat := m.entries.length

/-- The copy loop of the snapshot accessors: a fresh map that receives
`s[k] = v` for every entry of `m`, visited in the order of the entries. -/
def GoMap.copy {V : Type} (m : GoMap V) : GoMap V :=
  m.entries.foldl (fun s e => s.insert e.1 e.2) ∅

/-- `Topology.ContainsDataCenters` (topology.go, lines 58-62). -/
def Topology.ContainsDataCenters (tp : Topology R) : Bool :=
  decide (tp.dataCenters.len = 0)

/-- `Topology.GetDataCenter` (topology.go, lines 64-70); `none` stands for
`ok = false`. -/
def Topology.GetDataCenter (tp : Topology R) (name : String) : Option (DataCenter R) :=
  tp.dataCenters.lookup name

/-- `DataCenter.GetRack` (topology.go, lines 72-78). -/
def DataCenter.GetRack (dc : DataCenter R) (name : String) : Option (Rack R) :=
  dc.racks.lookup name

/-- `Rack.GetAgent` (topology.go, lines 80-86). -/
def Rack.GetAgent (rack : Rack R) (name : String) : Option (AgentInformation R) :=
  rack.agents.lookup name

/-- `Topology.AddDataCenter` (topology.go, lines 88-93). -/
def Topology.AddDataCenter (tp : Topology R) (dc : DataCenter R) : Topology R :=
  { tp with dataCenters := tp.dataCenters.insert dc.Name dc }

/-- `Topology.DataCenters` (topology.go, lines 95-104). -/
def Topology.DataCenters (tp : Topology R) : GoMap (DataCenter R) :=
  tp.dataCenters.copy

/-- `DataCenter.Racks` (topology.go, lines 106-115). -/
def DataCenter.Racks (dc : DataCenter R) : GoMap (Rack R) :=
  dc.racks.copy

/-- `DataCenter.AddRack` (topology.go, lines 117-122). -/
def DataCenter.AddRack (dc : DataCenter R) (rack : Rack R) : DataCenter R :=
  { dc with racks := dc.racks.insert rack.Name rack }

/-- `Rack.AddAgent` (topology.go, lines 124-129). -/
def Rack.AddAgent (rack : Rack R) (a : AgentInformation R) : Rack R :=
  { rack with agents := rack.agents.insert a.Location.URL a }

/-- `Rack.DropAgent` (topology.go, lines 131-136). -/
def Rack.DropAgent (rack : Rack R) (a : AgentInformation R) : Rack R :=
  { rack with agents := rack.agents.erase a.Location.URL }

/-- `Rack.Agents` (topology.go, lines 138-147). -/
def Rack.Agents (rack : Rack R) : GoMap (AgentInformation R) :=
  rack.agents.copy

end TopologyTree

/-! ### The eviction loop

One pass through the body of the `for` loop of `BackgroundEvictionLoop` is
one atomic step.  The entry handed out by `Dequeue` and the three readings of
`time.Now()` are arguments; `time.Sleep` changes no state, so the step only
records the duration it asks for.  A report that arrives while the loop
sleeps is a step of its own, before or after the pass.  Timestamps and
durations count nanoseconds. -/

section Eviction

variable {R : Type} [AddCommGroup R] [DecidableEq R]

/-- `time.Second`, in nanoseconds. -/
def Second : Time := 1000000000

/-- `TimeOutLimit` (leader_resources.go, line 12), in seconds. -/
def TimeOutLimit : Int := 15

/-- What one pass through the loop body did: the tracker after it, the
duration handed to `time.Sleep` if it slept, and the argument handed to
`deleteAgentInformation` if it called it. -/
structure Iteration (R : Type) where
  tracker : LeaderResource R
  slept : Option Time
  deleted : Option (AgentInformation R)

/-- One pass through the body of the loop of `BackgroundEvictionLoop`
(leader_resources.go, lines 155-179).  `popped` is the entry that `Dequeue`
hands out when the queue is not empty; `t1`, `t2` and `t3` are the values of
`time.Now()` at lines 167, 169 and 175. -/
def BackgroundEvictionLoop.iteration (l : LeaderResource R) (popped : AgentInformation R)
    (t1 t2 t3 : Time) : Iteration R :=
  if l.EvictionQueue.length = 0 then
    { tracker := l, slept := some (TimeOutLimit * Second), deleted := none }
  else
    let l1 : LeaderResource R := { l with EvictionQueue := l.EvictionQueue.erase popped }
    match findAgentInformation l1 popped.Location with
    | none => { tracker := l1, slept := none, deleted := none }
    | some ai =>
      let slept : Option Time :=
        if ai.LastHeartBeat + TimeOutLimit * Second > t1 then
          some (ai.LastHeartBeat + TimeOutLimit * Second - t2)
        else none
      match findAgentInformation l1 ai.Location with
      | none => { tracker := l1, slept := slept, deleted := none }
      | some ai2 =>
        if ai2.LastHeartBeat + TimeOutLimit * Second < t3 then
          { tracker := deleteAgentInformation l1 ai2, slept := slept, deleted := some ai2 }
        else { tracker := l1, slept := slept, deleted := none }

/-- One step of the tracker: a report arrives, or the eviction loop makes one
pass. -/
inductive Step (R : Type) where
  | update (ai : AgentInformation R) (now : Time)
  | reap (popped : AgentInformation R) (t1 t2 t3 : Time)

/-- The tracker after one step. -/
def Step.apply (l : LeaderResource R) : Step R → LeaderResource R
  | Step.update ai now => UpdateAgentInformation l ai now
  | Step.reap popped t1 t2 t3 => (BackgroundEvictionLoop.iteration l popped t1 t2 t3).tracker

/-- The tracker after a finite sequence of steps, first step first. -/
def runSteps (l : LeaderResource R) (steps : List (Step R)) : LeaderResource R :=
  steps.foldl Step.apply l

/-- The agent stored at `location`, if any, has a heartbeat whose deadline is
not strictly before `now`. -/
def YoungAt (l : LeaderResource R) (location : Location) (now : Time) : Prop :=
  ∀ ai, findAgentInformation l location = some ai →
    ¬ ai.LastHeartBeat + TimeOutLimit * Second < now

/-- Along a run, the agent stored at `location` is young at the final check of
every pass of the eviction loop. -/
def YoungAtEveryReap (location : Location) : LeaderResource R → List (Step R) → Prop
  | _, [] => True
  | l, Step.update ai now :: steps =>
    YoungAtEveryReap location (UpdateAgentInformation l ai now) steps
  | l, Step.reap popped t1 t2 t3 :: steps =>
    YoungAt l location t3 ∧
      YoungAtEveryReap location (BackgroundEvictionLoop.iteration l popped t1 t2 t3).tracker steps

/-- Every stored agent is filed under its own location: the names of its
datacenter and rack and its address are the keys it is stored under. -/
def WellKeyed (t : Topology R) : Prop :=
  ∀ d ∈ t.dataCenters.entries, ∀ r ∈ d.2.racks.entries, ∀ a ∈ r.2.agents.entries,
    a.2.Location = { DataCenter := d.1, Rack := r.1, Address := a.1 }

instance (t : Topology R) : Decidable (WellKeyed t) := by
  unfold WellKeyed; infer_instance

/-! ### Consistency of the cached sums across the levels -/

/-- The cached `Resource` of the topology is the sum of those of its
datacenters, and that of every datacenter the sum of those of its racks. -/
def ResourceConsistent (t : Topology R) : Prop :=
  t.Resource = sumValues DataCenter.Resource t.dataCenters ∧
    ∀ d ∈ t.dataCenters.entries, d.2.Resource = sumValues Rack.Resource d.2.racks

/-- The cached `Allocated` of the topology is the sum of those of its
datacenters, and that of every datacenter the sum of those of its racks. -/
def AllocatedConsistent (t : Topology R) : Prop :=
  t.Allocated = sumValues DataCenter.Allocated t.dataCenters ∧
    ∀ d ∈ t.dataCenters.entries, d.2.Allocated = sumValues Rack.Allocated d.2.racks

instance (t : Topology R) : Decidable (ResourceConsistent t) := by
  unfold ResourceConsistent; infer_instance

instance (t : Topology R) : Decidable (AllocatedConsistent t) := by
  unfold AllocatedConsistent; infer_instance

end Eviction

/-! ### A concrete resource vector -/

/-- Modelled from the spec: a resource vector with two dimensions, the cpu
count of the concrete scenario and a memory size, added and subtracted
componentwise. -/
structure ComputeResource where
  cpu : Int
  memory : Int
  deriving DecidableEq, Repr

/-- A resource vector as the pair of its components. -/
def ComputeResource.toPair : ComputeResource ≃ Int × Int where
  toFun r := (r.cpu, r.memory)
  invFun p := ⟨p.1, p.2⟩
  left_inv _ := rfl
  right_inv _ := rfl

instance : AddCommGroup ComputeResource := ComputeResource.toPair.addCommGroup

/-! ### The concrete scenario -/

/-- The location of agent A: datacenter "d1", rack "r1". -/
def locationA : Location := { DataCenter := "d1", Rack := "r1", Address := "10.0.0.1:8931" }

/-- A report of agent A with the given cpu capacity and cpu allocation; the
heartbeat field of a report is overwritten on registration. -/
def reportA (cpu allocated : Int) : AgentInformation ComputeResource :=
  { Location := locationA
    LastHeartBeat := 0
    Resource := { cpu := cpu, memory := 0 }
    Allocated := { cpu := allocated, memory := 0 } }

/-- The empty tracker over the concrete resource vectors. -/
def tracker0 : LeaderResource ComputeResource := NewLeaderResource

/-- Agent A registered with `{cpu:4}` at time 100. -/
def tracker1 : LeaderResource ComputeResource :=
  UpdateAgentInformation tracker0 (reportA 4 0) 100

/-- Agent A updated to `{cpu:6}` at time 105. -/
def tracker2 : LeaderResource ComputeResource :=
  UpdateAgentInformation tracker1 (reportA 6 0) 105

/-- Agent A deleted; the deletion reads only the location of its argument. -/
def tracker3 : LeaderResource ComputeResource :=
  deleteAgentInformation tracker2 (reportA 4 0)

/-- The location of agent B: another address in the rack of agent A. -/
def locationB : Location := { DataCenter := "d1", Rack := "r1", Address := "10.0.0.2:8931" }

/-- A report of agent B with the given cpu capacity and cpu allocation. -/
def reportB (cpu allocated : Int) : AgentInformation ComputeResource :=
  { Location := locationB
    LastHeartBeat := 0
    Resource := { cpu := cpu, memory := 0 }
    Allocated := { cpu := allocated, memory := 0 } }

/-- The entry of agent A that its registration at time 100 stores and puts
on the queue. -/
def storedA : AgentInformation ComputeResource :=
  { reportA 4 0 with LastHeartBeat := 100 }

/-- The deadline of the heartbeat of agent A at time 100. -/
def deadlineA : Time := 100 + TimeOutLimit * Second

/-! ## Theorems -/

section MapSums

variable {R : Type} [AddCommGroup R]

/-- Removing the key of a stored value takes its share out of the sum. -/
theorem sum_kerase_add {V : Type} (f : V → R) (k : String) (v : V) :
    ∀ es : List (Σ _ : String, V), List.dlookup k es = some v →
      ((List.kerase k es).map fun e => f e.2).sum + f v = (es.map fun e => f e.2).sum
  | [], h => by simp at h
  | ⟨k', v'⟩ :: es, h => by
    by_cases hk : k = k'
    · subst hk
      rw [List.dlookup_cons_eq] at h
      cases h
      simp [List.kerase_cons_eq, add_comm]
    · rw [List.dlookup_cons_ne _ _ hk] at h
      rw [List.kerase_cons_ne hk]
      have ih := sum_kerase_add f k v es h
      simp only [List.map_cons, List.sum_cons]
      rw [add_assoc, ih]

/-- Erasing the key of a stored value takes its share out of the sum. -/
theorem sumValues_erase_add {V : Type} (f : V → R) (m : GoMap V) (k : String) (v : V)
    (h : m.lookup k = some v) : sumValues f (m.erase k) + f v = sumValues f m :=
  sum_kerase_add f k v m.entries h

/-- Writing a key that is present replaces the share of its old value. -/
theorem sumValues_insert_of_some {V : Type} (f : V → R) (m : GoMap V) (k : String) (v o : V)
    (h : m.lookup k = some o) : sumValues f (m.insert k v) + f o = f v + sumValues f m := by
  have h1 := sumValues_erase_add f m k o h
  unfold sumValues at *
  simp only [AList.insert_entries, List.map_cons, List.sum_cons]
  rw [add_assoc]
  exact congrArg (f v + ·) h1

/-- Writing a key that is absent adds the share of the new value. -/
theorem sumValues_insert_of_none {V : Type} (f : V → R) (m : GoMap V) (k : String) (v : V)
    (h : m.lookup k = none) : sumValues f (m.insert k v) = f v + sumValues f m := by
  unfold sumValues
  rw [AList.insert_entries_of_neg (AList.lookup_eq_none.1 h)]
  simp

/-- Writing a key replaces the share of the value read before, a default of
share zero standing for an absent key. -/
theorem sumValues_insert_getD {V : Type} (f : V → R) (m : GoMap V) (k : String) (v d : V)
    (hd : f d = 0) :
    sumValues f (m.insert k v) + f ((m.lookup k).getD d) = f v + sumValues f m := by
  cases h : m.lookup k with
  | none => simp [sumValues_insert_of_none f m k v h, hd]
  | some o => simpa using sumValues_insert_of_some f m k v o h

/-- An entry of a map after a write is the written one or an entry from before. -/
theorem mem_insert_entries {V : Type} (m : GoMap V) (k : String) (v : V)
    (e : Σ _ : String, V) (he : e ∈ (m.insert k v).entries) : e = ⟨k, v⟩ ∨ e ∈ m.entries := by
  rw [AList.insert_entries, List.mem_cons] at he
  rcases he with he | he
  · exact Or.inl he
  · exact Or.inr ((List.kerase_sublist k m.entries).subset he)

/-- A value found by lookup is an entry of the map. -/
theorem mem_entries_of_lookup {V : Type} (m : GoMap V) (k : String) (v : V)
    (h : m.lookup k = some v) : (⟨k, v⟩ : Σ _ : String, V) ∈ m.entries :=
  AList.mem_lookup_iff.1 h

/-- The working datacenter is the stored one, or else a fresh one. -/
theorem workingDataCenter_eq (l : LeaderResource R) (ai : AgentInformation R) :
    workingDataCenter l ai =
      (l.Topology.dataCenters.lookup ai.Location.DataCenter).getD
        { Name := ai.Location.DataCenter, racks := ∅, Resource := 0, Allocated := 0 } := by
  unfold workingDataCenter
  cases l.Topology.dataCenters.lookup ai.Location.DataCenter <;> rfl

/-- The working rack is the stored one, or else a fresh one. -/
theorem workingRack_eq (dc : DataCenter R) (ai : AgentInformation R) :
    workingRack dc ai =
      (dc.racks.lookup ai.Location.Rack).getD
        { Name := ai.Location.Rack, agents := ∅, Resource := 0, Allocated := 0 } := by
  unfold workingRack
  cases dc.racks.lookup ai.Location.Rack <;> rfl

/-- The working datacenter of an update satisfies the invariant. -/
theorem workingDataCenter_aggregated (l : LeaderResource R) (ai : AgentInformation R)
    (h : ResourceAggregated l.Topology) : (workingDataCenter l ai).ResourceAggregated := by
  unfold workingDataCenter
  cases hd : l.Topology.dataCenters.lookup ai.Location.DataCenter with
  | none =>
    refine ⟨rfl, ?_⟩
    intro r hr
    simp at hr
  | some dc => exact h.2 _ (mem_entries_of_lookup _ _ _ hd)

/-- The working rack of an update satisfies the invariant. -/
theorem workingRack_aggregated (dc : DataCenter R) (ai : AgentInformation R)
    (h : dc.ResourceAggregated) :
    (workingRack dc ai).Resource = agentsResource (workingRack dc ai) := by
  unfold workingRack
  cases hr : dc.racks.lookup ai.Location.Rack with
  | none => rfl
  | some rack => exact h.2 _ (mem_entries_of_lookup _ _ _ hr)

/-- The empty tracker satisfies the aggregation invariant for `Resource`. -/
theorem NewLeaderResource_aggregated :
    ResourceAggregated (NewLeaderResource : LeaderResource R).Topology := by
  refine ⟨rfl, ?_⟩
  intro d hd
  simp [NewLeaderResource] at hd

/-- The lookup the update makes in its working rack is the lookup of
`findAgentInformation`. -/
theorem working_lookup_eq_find (l : LeaderResource R) (ai : AgentInformation R) :
    (workingRack (workingDataCenter l ai) ai).agents.lookup ai.Location.URL =
      findAgentInformation l ai.Location := by
  cases hd : l.Topology.dataCenters.lookup ai.Location.DataCenter with
  | none => simp [workingRack, workingDataCenter, findAgentInformation, hd]
  | some dc =>
    cases hr : dc.racks.lookup ai.Location.Rack with
    | none => simp [workingRack, workingDataCenter, findAgentInformation, hd, hr]
    | some rack => simp [workingRack, workingDataCenter, findAgentInformation, hd, hr]

/-- The cached `Resource` of the working datacenter is the one read at the
location, zero for a fresh datacenter. -/
theorem workingDataCenter_Resource (l : LeaderResource R) (ai : AgentInformation R) :
    (workingDataCenter l ai).Resource = dataCenterResourceAt l ai.Location := by
  cases hd : l.Topology.dataCenters.lookup ai.Location.DataCenter <;>
    simp [workingDataCenter, dataCenterResourceAt, dataCenterAt, hd]

/-- The cached `Resource` of the working rack is the one read at the location,
zero for a fresh rack. -/
theorem workingRack_Resource (l : LeaderResource R) (ai : AgentInformation R) :
    (workingRack (workingDataCenter l ai) ai).Resource = rackResourceAt l ai.Location := by
  cases hd : l.Topology.dataCenters.lookup ai.Location.DataCenter with
  | none => simp [workingRack, workingDataCenter, rackResourceAt, rackAt, dataCenterAt, hd]
  | some dc =>
    cases hr : dc.racks.lookup ai.Location.Rack <;>
      simp [workingRack, workingDataCenter, rackResourceAt, rackAt, dataCenterAt, hd, hr]

end MapSums

section Lookup

variable {R : Type}

/-- The lookup fails exactly when one of the three levels is absent. -/
theorem findAgentInformation_eq_none_iff (l : LeaderResource R) (location : Location) :
    findAgentInformation l location = none ↔
      l.Topology.dataCenters.lookup location.DataCenter = none ∨
      (∃ dc, l.Topology.dataCenters.lookup location.DataCenter = some dc ∧
        dc.racks.lookup location.Rack = none) ∨
      (∃ dc rack, l.Topology.dataCenters.lookup location.DataCenter = some dc ∧
        dc.racks.lookup location.Rack = some rack ∧
        rack.agents.lookup location.URL = none) := by
  cases hd : l.Topology.dataCenters.lookup location.DataCenter with
  | none => simp [findAgentInformation, hd]
  | some dc =>
    cases hr : dc.racks.lookup location.Rack with
    | none => simp [findAgentInformation, hd, hr]
    | some rack => simp [findAgentInformation, hd, hr]

end Lookup

section Tracker

variable {R : Type} [AddCommGroup R] [DecidableEq R]

/-- Lines 82-89 add the delta to a cached sum, also when it is zero. -/
theorem bumpResource_eq (delta x : R) : bumpResource delta x = x + delta := by
  unfold bumpResource
  by_cases h : delta = 0 <;> simp [h]

/-- The stored entry carries the reported capacity after lines 69-80. -/
theorem storedEntry_Resource (old : Option (AgentInformation R)) (ai : AgentInformation R)
    (now : Time) : (storedEntry old ai now).Resource = ai.Resource := by
  cases old with
  | none => rfl
  | some o =>
    by_cases h : ai.Resource - o.Resource = 0
    · simp [storedEntry, deltaResourceOf, h, (sub_eq_zero.1 h)]
    · simp [storedEntry, deltaResourceOf, h]

/-- The agents of the rack after an update weigh the delta more. -/
theorem agents_insert_storedEntry (agents : GoMap (AgentInformation R))
    (ai : AgentInformation R) (now : Time) :
    sumValues AgentInformation.Resource
        (agents.insert ai.Location.URL (storedEntry (agents.lookup ai.Location.URL) ai now)) =
      sumValues AgentInformation.Resource agents +
        deltaResourceOf (agents.lookup ai.Location.URL) ai := by
  cases h : agents.lookup ai.Location.URL with
  | none =>
    rw [sumValues_insert_of_none _ _ _ _ h, storedEntry_Resource]
    simp [deltaResourceOf, add_comm]
  | some o =>
    have h1 := sumValues_insert_of_some AgentInformation.Resource agents ai.Location.URL
      (storedEntry (some o) ai now) o h
    rw [storedEntry_Resource] at h1
    simp only [deltaResourceOf, Minus]
    rw [eq_sub_of_add_eq h1]
    abel

/-- An update preserves the aggregation invariant for `Resource`. -/
theorem UpdateAgentInformation_aggregated (l : LeaderResource R) (ai : AgentInformation R)
    (now : Time) (h : ResourceAggregated l.Topology) :
    ResourceAggregated (UpdateAgentInformation l ai now).Topology := by
  have hdc := workingDataCenter_aggregated l ai h
  have hrack := workingRack_aggregated (workingDataCenter l ai) ai hdc
  have e1 := agents_insert_storedEntry (workingRack (workingDataCenter l ai) ai).agents ai now
  have e2 := fun v => sumValues_insert_getD (agentsResource (R := R)) (workingDataCenter l ai).racks
    ai.Location.Rack v
    { Name := ai.Location.Rack, agents := ∅, Resource := 0, Allocated := 0 } rfl
  rw [← workingRack_eq] at e2
  have e3 := fun v => sumValues_insert_getD (racksAgentsResource (R := R)) l.Topology.dataCenters
    ai.Location.DataCenter v
    { Name := ai.Location.DataCenter, racks := ∅, Resource := 0, Allocated := 0 } rfl
  rw [← workingDataCenter_eq] at e3
  unfold UpdateAgentInformation
  dsimp only
  generalize hdcw : workingDataCenter l ai = dc at *
  generalize hrw : workingRack dc ai = rack at *
  generalize hold : rack.agents.lookup ai.Location.URL = old at *
  generalize hdelta : deltaResourceOf old ai = delta at *
  simp only [bumpResource_eq]
  have hr1 : rack.Resource + delta =
      sumValues AgentInformation.Resource (rack.agents.insert ai.Location.URL (storedEntry old ai now)) := by
    rw [e1, hrack]; rfl
  have hd1 : dc.Resource + delta = sumValues agentsResource (dc.racks.insert ai.Location.Rack
      { rack with
        agents := rack.agents.insert ai.Location.URL (storedEntry old ai now)
        Resource := rack.Resource + delta
        Allocated := bumpAllocated old ai rack.Allocated }) := by
    have := e2 { rack with
        agents := rack.agents.insert ai.Location.URL (storedEntry old ai now)
        Resource := rack.Resource + delta
        Allocated := bumpAllocated old ai rack.Allocated }
    have hdc1 : dc.Resource = sumValues agentsResource dc.racks := hdc.1
    rw [eq_sub_of_add_eq this, hdc1]
    simp only [agentsResource] at *
    rw [← hr1, ← hrack]
    abel
  refine ⟨?_, ?_⟩
  · have := e3 { dc with
        racks := dc.racks.insert ai.Location.Rack
          { rack with
            agents := rack.agents.insert ai.Location.URL (storedEntry old ai now)
            Resource := rack.Resource + delta
            Allocated := bumpAllocated old ai rack.Allocated }
        Resource := dc.Resource + delta
        Allocated := bumpAllocated old ai dc.Allocated }
    have hdc1 : dc.Resource = sumValues agentsResource dc.racks := hdc.1
    have ht1 : l.Topology.Resource = sumValues racksAgentsResource l.Topology.dataCenters := h.1
    simp only [topologyAgentsResource]
    rw [eq_sub_of_add_eq this, ht1]
    simp only [racksAgentsResource] at *
    rw [← hd1, ← hdc1]
    abel
  · intro d hd
    rcases mem_insert_entries _ _ _ _ hd with rfl | hd
    · refine ⟨hd1, ?_⟩
      intro r hr
      rcases mem_insert_entries _ _ _ _ hr with rfl | hr
      · exact hr1
      · exact hdc.2 r hr
    · exact h.2 d hd

/-- The deletion returns at line 108 when the datacenter is absent. -/
theorem deleteAgentInformation_of_no_dataCenter (l : LeaderResource R) (ai : AgentInformation R)
    (hd : l.Topology.dataCenters.lookup ai.Location.DataCenter = none) :
    deleteAgentInformation l ai = l := by
  simp only [deleteAgentInformation, hd]

/-- The deletion returns at line 113 when the rack is absent. -/
theorem deleteAgentInformation_of_no_rack (l : LeaderResource R) (ai : AgentInformation R)
    (dc : DataCenter R) (hd : l.Topology.dataCenters.lookup ai.Location.DataCenter = some dc)
    (hr : dc.racks.lookup ai.Location.Rack = none) :
    deleteAgentInformation l ai = l := by
  simp only [deleteAgentInformation, hd, hr]

/-- The deletion returns at line 118 when the agent is absent. -/
theorem deleteAgentInformation_of_no_agent (l : LeaderResource R) (ai : AgentInformation R)
    (dc : DataCenter R) (rack : Rack R)
    (hd : l.Topology.dataCenters.lookup ai.Location.DataCenter = some dc)
    (hr : dc.racks.lookup ai.Location.Rack = some rack)
    (ha : rack.agents.lookup ai.Location.URL = none) :
    deleteAgentInformation l ai = l := by
  simp only [deleteAgentInformation, hd, hr, ha]

/-- The deletion skips lines 125-134 when the stored `Resource` is zero. -/
theorem deleteAgentInformation_of_zero (l : LeaderResource R) (ai : AgentInformation R)
    (dc : DataCenter R) (rack : Rack R) (oldInfo : AgentInformation R)
    (hd : l.Topology.dataCenters.lookup ai.Location.DataCenter = some dc)
    (hr : dc.racks.lookup ai.Location.Rack = some rack)
    (ha : rack.agents.lookup ai.Location.URL = some oldInfo)
    (hz : oldInfo.Resource = 0) :
    deleteAgentInformation l ai = l := by
  simp [deleteAgentInformation, hd, hr, ha, hz]

/-- The deletion runs lines 125-134 when the stored `Resource` is not zero. -/
theorem deleteAgentInformation_of_nonzero (l : LeaderResource R) (ai : AgentInformation R)
    (dc : DataCenter R) (rack : Rack R) (oldInfo : AgentInformation R)
    (hd : l.Topology.dataCenters.lookup ai.Location.DataCenter = some dc)
    (hr : dc.racks.lookup ai.Location.Rack = some rack)
    (ha : rack.agents.lookup ai.Location.URL = some oldInfo)
    (hz : oldInfo.Resource ≠ 0) :
    deleteAgentInformation l ai =
      { l with
        Topology :=
          { Resource := l.Topology.Resource - oldInfo.Resource
            Allocated := l.Topology.Allocated - oldInfo.Allocated
            dataCenters := l.Topology.dataCenters.insert ai.Location.DataCenter
              { dc with
                racks := dc.racks.insert ai.Location.Rack
                  { rack with
                    agents := rack.agents.erase ai.Location.URL
                    Resource := rack.Resource - oldInfo.Resource
                    Allocated := rack.Allocated - oldInfo.Allocated }
                Resource := dc.Resource - oldInfo.Resource
                Allocated := dc.Allocated - oldInfo.Allocated } }
        EventChan :=
          l.EventChan ++ [{ DataCenter := ai.Location.DataCenter, Rack := ai.Location.Rack }] } := by
  simp [deleteAgentInformation, hd, hr, ha, hz]

/-- A deletion preserves the aggregation invariant for `Resource`. -/
theorem deleteAgentInformation_aggregated (l : LeaderResource R) (ai : AgentInformation R)
    (h : ResourceAggregated l.Topology) :
    ResourceAggregated (deleteAgentInformation l ai).Topology := by
  cases hd : l.Topology.dataCenters.lookup ai.Location.DataCenter with
  | none => rw [deleteAgentInformation_of_no_dataCenter l ai hd]; exact h
  | some dc =>
    cases hr : dc.racks.lookup ai.Location.Rack with
    | none => rw [deleteAgentInformation_of_no_rack l ai dc hd hr]; exact h
    | some rack =>
      cases ha : rack.agents.lookup ai.Location.URL with
      | none => rw [deleteAgentInformation_of_no_agent l ai dc rack hd hr ha]; exact h
      | some oldInfo =>
        by_cases hz : oldInfo.Resource = 0
        · rw [deleteAgentInformation_of_zero l ai dc rack oldInfo hd hr ha hz]; exact h
        · have hdc : dc.ResourceAggregated := h.2 _ (mem_entries_of_lookup _ _ _ hd)
          have hdc1 : dc.Resource = sumValues agentsResource dc.racks := hdc.1
          have hrack : rack.Resource = sumValues AgentInformation.Resource rack.agents :=
            hdc.2 _ (mem_entries_of_lookup _ _ _ hr)
          have ht1 : l.Topology.Resource = sumValues racksAgentsResource l.Topology.dataCenters :=
            h.1
          have e1 := sumValues_erase_add AgentInformation.Resource rack.agents ai.Location.URL
            oldInfo ha
          have e2 := fun v => sumValues_insert_of_some (agentsResource (R := R)) dc.racks
            ai.Location.Rack v rack hr
          have e3 := fun v => sumValues_insert_of_some (racksAgentsResource (R := R))
            l.Topology.dataCenters ai.Location.DataCenter v dc hd
          rw [deleteAgentInformation_of_nonzero l ai dc rack oldInfo hd hr ha hz]
          have hr1 : rack.Resource - oldInfo.Resource =
              sumValues AgentInformation.Resource (rack.agents.erase ai.Location.URL) := by
            rw [hrack, ← e1]; abel
          have hd1 : dc.Resource - oldInfo.Resource = sumValues agentsResource
              (dc.racks.insert ai.Location.Rack
                { rack with
                  agents := rack.agents.erase ai.Location.URL
                  Resource := rack.Resource - oldInfo.Resource
                  Allocated := rack.Allocated - oldInfo.Allocated }) := by
            have := e2 { rack with
                  agents := rack.agents.erase ai.Location.URL
                  Resource := rack.Resource - oldInfo.Resource
                  Allocated := rack.Allocated - oldInfo.Allocated }
            rw [eq_sub_of_add_eq this, hdc1]
            simp only [agentsResource] at *
            rw [← hr1, ← hrack]
            abel
          refine ⟨?_, ?_⟩
          · have := e3 { dc with
                racks := dc.racks.insert ai.Location.Rack
                  { rack with
                    agents := rack.agents.erase ai.Location.URL
                    Resource := rack.Resource - oldInfo.Resource
                    Allocated := rack.Allocated - oldInfo.Allocated }
                Resource := dc.Resource - oldInfo.Resource
                Allocated := dc.Allocated - oldInfo.Allocated }
            simp only [topologyAgentsResource]
            rw [eq_sub_of_add_eq this, ht1]
            simp only [racksAgentsResource] at *
            rw [← hd1, ← hdc1]
            abel
          · intro d hd'
            rcases mem_insert_entries _ _ _ _ hd' with rfl | hd'
            · refine ⟨hd1, ?_⟩
              intro r hr'
              rcases mem_insert_entries _ _ _ _ hr' with rfl | hr'
              · exact hr1
              · exact hdc.2 r hr'
            · exact h.2 d hd'

/-- Every run preserves the aggregation invariant for `Resource`. -/
theorem run_aggregated (calls : List (Call R)) :
    ∀ l : LeaderResource R, ResourceAggregated l.Topology →
      ResourceAggregated (run l calls).Topology := by
  induction calls with
  | nil => intro l h; exact h
  | cons c cs ih =>
    intro l h
    apply ih
    cases c with
    | update ai now => exact UpdateAgentInformation_aggregated l ai now h
    | delete ai => exact deleteAgentInformation_aggregated l ai h

/-- The datacenter of the report after an update. -/
theorem dataCenterAt_update (l : LeaderResource R) (ai : AgentInformation R) (now : Time) :
    (dataCenterAt (UpdateAgentInformation l ai now) ai.Location).map DataCenter.Resource =
      some (dataCenterResourceAt l ai.Location +
        deltaResourceOf (findAgentInformation l ai.Location) ai) := by
  simp only [dataCenterAt, UpdateAgentInformation, AList.lookup_insert, Option.map_some',
    bumpResource_eq, working_lookup_eq_find, workingDataCenter_Resource]

/-- The rack of the report after an update. -/
theorem rackAt_update (l : LeaderResource R) (ai : AgentInformation R) (now : Time) :
    (rackAt (UpdateAgentInformation l ai now) ai.Location).map Rack.Resource =
      some (rackResourceAt l ai.Location +
        deltaResourceOf (findAgentInformation l ai.Location) ai) := by
  simp only [rackAt, dataCenterAt, UpdateAgentInformation, AList.lookup_insert, Option.map_some',
    bumpResource_eq, working_lookup_eq_find, workingRack_Resource]

/-- The topology sum after an update. -/
theorem topology_update (l : LeaderResource R) (ai : AgentInformation R) (now : Time) :
    (UpdateAgentInformation l ai now).Topology.Resource =
      l.Topology.Resource + deltaResourceOf (findAgentInformation l ai.Location) ai := by
  simp only [UpdateAgentInformation, bumpResource_eq, working_lookup_eq_find]

/-- The events sent by an update. -/
theorem eventChan_update (l : LeaderResource R) (ai : AgentInformation R) (now : Time) :
    (UpdateAgentInformation l ai now).EventChan =
      if deltaResourceOf (findAgentInformation l ai.Location) ai = 0 then l.EventChan
      else l.EventChan ++ [eventOf ai] := by
  simp only [UpdateAgentInformation, working_lookup_eq_find, eventOf]
  by_cases h : deltaResourceOf (findAgentInformation l ai.Location) ai = 0 <;> simp [h]

/-- Claim C6: an update of an agent stored with `Resource = R1` by a report
with `Resource = R2` changes the cached `Resource` of the rack, of the
datacenter and of the topology each by exactly `R2 - R1`, and leaves all
three unchanged when `R2 = R1`. -/
theorem update_existing_delta (l : LeaderResource R) (ai oldInfo : AgentInformation R)
    (now : Time) (h : findAgentInformation l ai.Location = some oldInfo) :
    ((rackAt (UpdateAgentInformation l ai now) ai.Location).map Rack.Resource =
        some (rackResourceAt l ai.Location + (ai.Resource - oldInfo.Resource)) ∧
      (dataCenterAt (UpdateAgentInformation l ai now) ai.Location).map DataCenter.Resource =
        some (dataCenterResourceAt l ai.Location + (ai.Resource - oldInfo.Resource)) ∧
      (UpdateAgentInformation l ai now).Topology.Resource =
        l.Topology.Resource + (ai.Resource - oldInfo.Resource)) ∧
    (ai.Resource = oldInfo.Resource →
      (rackAt (UpdateAgentInformation l ai now) ai.Location).map Rack.Resource =
        some (rackResourceAt l ai.Location) ∧
      (dataCenterAt (UpdateAgentInformation l ai now) ai.Location).map DataCenter.Resource =
        some (dataCenterResourceAt l ai.Location) ∧
      (UpdateAgentInformation l ai now).Topology.Resource = l.Topology.Resource) := by
  have hr := rackAt_update l ai now
  have hd := dataCenterAt_update l ai now
  have ht := topology_update l ai now
  rw [h] at hr hd ht
  simp only [deltaResourceOf, Minus] at hr hd ht
  refine ⟨⟨hr, hd, ht⟩, ?_⟩
  intro he
  rw [hr, hd, ht, he]
  simp

/-- Claim C7: an update for a location at which no agent is stored makes the
cached `Resource` of the rack, of the datacenter and of the topology equal to
the previous value, zero for a container created by the call, plus the
reported capacity. -/
theorem update_new_sums (l : LeaderResource R) (ai : AgentInformation R) (now : Time)
    (h : findAgentInformation l ai.Location = none) :
    (rackAt (UpdateAgentInformation l ai now) ai.Location).map Rack.Resource =
        some (rackResourceAt l ai.Location + ai.Resource) ∧
      (dataCenterAt (UpdateAgentInformation l ai now) ai.Location).map DataCenter.Resource =
        some (dataCenterResourceAt l ai.Location + ai.Resource) ∧
      (UpdateAgentInformation l ai now).Topology.Resource =
        l.Topology.Resource + ai.Resource := by
  have hr := rackAt_update l ai now
  have hd := dataCenterAt_update l ai now
  have ht := topology_update l ai now
  rw [h] at hr hd ht
  exact ⟨hr, hd, ht⟩

/-- Claim C8, amended: an update for a location at which no agent is stored
sends exactly one event, the one for the datacenter and rack of the report,
when the reported capacity is not zero, and sends nothing when it is zero. -/
theorem update_new_event (l : LeaderResource R) (ai : AgentInformation R) (now : Time)
    (h : findAgentInformation l ai.Location = none) :
    (ai.Resource ≠ 0 →
      (UpdateAgentInformation l ai now).EventChan =
        l.EventChan ++ [{ DataCenter := ai.Location.DataCenter, Rack := ai.Location.Rack }]) ∧
    (ai.Resource = 0 → (UpdateAgentInformation l ai now).EventChan = l.EventChan) := by
  have he := eventChan_update l ai now
  rw [h] at he
  simp only [deltaResourceOf] at he
  constructor
  · intro hz; rw [he, if_neg hz]; rfl
  · intro hz; rw [he, if_pos hz]

/-- After an update the lookup finds the entry the update stored. -/
theorem find_after_update (l : LeaderResource R) (ai : AgentInformation R) (now : Time) :
    findAgentInformation (UpdateAgentInformation l ai now) ai.Location =
      some (storedEntry (findAgentInformation l ai.Location) ai now) := by
  simp only [findAgentInformation, UpdateAgentInformation, AList.lookup_insert,
    working_lookup_eq_find]

/-- The queue after an update holds one more entry. -/
theorem evictionQueue_update (l : LeaderResource R) (ai : AgentInformation R) (now : Time) :
    (UpdateAgentInformation l ai now).EvictionQueue =
      l.EvictionQueue ++ [enqueuedEntry (findAgentInformation l ai.Location) ai now] := by
  simp only [UpdateAgentInformation, working_lookup_eq_find]

/-- A second report with the same location and `Resource` sends no event and
keeps the cached `Resource` of the rack, the datacenter and the topology; it
adds one entry to the queue. -/
theorem second_update_keeps_resource (l : LeaderResource R) (ai ai2 : AgentInformation R)
    (now now2 : Time) (hl : ai2.Location = ai.Location) (hr : ai2.Resource = ai.Resource) :
    (UpdateAgentInformation (UpdateAgentInformation l ai now) ai2 now2).Topology.Resource =
        (UpdateAgentInformation l ai now).Topology.Resource ∧
      (dataCenterAt (UpdateAgentInformation (UpdateAgentInformation l ai now) ai2 now2)
          ai.Location).map DataCenter.Resource =
        (dataCenterAt (UpdateAgentInformation l ai now) ai.Location).map DataCenter.Resource ∧
      (rackAt (UpdateAgentInformation (UpdateAgentInformation l ai now) ai2 now2)
          ai.Location).map Rack.Resource =
        (rackAt (UpdateAgentInformation l ai now) ai.Location).map Rack.Resource ∧
      (UpdateAgentInformation (UpdateAgentInformation l ai now) ai2 now2).EventChan =
        (UpdateAgentInformation l ai now).EventChan ∧
      (UpdateAgentInformation (UpdateAgentInformation l ai now) ai2 now2).EvictionQueue =
        (UpdateAgentInformation l ai now).EvictionQueue ++ [ai2] := by
  have hf : findAgentInformation (UpdateAgentInformation l ai now) ai2.Location =
      some (storedEntry (findAgentInformation l ai.Location) ai now) := by
    rw [hl]; exact find_after_update l ai now
  have hdelta : deltaResourceOf
      (findAgentInformation (UpdateAgentInformation l ai now) ai2.Location) ai2 = 0 := by
    rw [hf]
    simp [deltaResourceOf, storedEntry_Resource, hr]
  have h1 := topology_update (UpdateAgentInformation l ai now) ai2 now2
  have h2 := dataCenterAt_update (UpdateAgentInformation l ai now) ai2 now2
  have h3 := rackAt_update (UpdateAgentInformation l ai now) ai2 now2
  have h4 := eventChan_update (UpdateAgentInformation l ai now) ai2 now2
  have h5 := evictionQueue_update (UpdateAgentInformation l ai now) ai2 now2
  rw [hdelta] at h1 h2 h3 h4
  rw [hf] at h5
  rw [hl] at h2 h3
  have h6 : (dataCenterAt (UpdateAgentInformation l ai now) ai.Location).map DataCenter.Resource
      = some (dataCenterResourceAt (UpdateAgentInformation l ai now) ai.Location) := by
    simp [dataCenterAt, dataCenterResourceAt, UpdateAgentInformation, AList.lookup_insert]
  have h7 : (rackAt (UpdateAgentInformation l ai now) ai.Location).map Rack.Resource
      = some (rackResourceAt (UpdateAgentInformation l ai now) ai.Location) := by
    simp [rackAt, dataCenterAt, rackResourceAt, UpdateAgentInformation, AList.lookup_insert]
  refine ⟨by simpa using h1, ?_, ?_, by simpa using h4, by simpa [enqueuedEntry] using h5⟩
  · rw [h2, h6]; simp
  · rw [h3, h7]; simp

/-- The deletion of an agent stored with a `Resource` that is not zero takes
its `Resource` and its `Allocated` out of the three cached sums and sends one
event. -/
theorem delete_nonzero_sums (l : LeaderResource R) (ai oldInfo : AgentInformation R)
    (h : findAgentInformation l ai.Location = some oldInfo) (hz : oldInfo.Resource ≠ 0) :
    (rackAt (deleteAgentInformation l ai) ai.Location).map Rack.Resource =
        some (rackResourceAt l ai.Location - oldInfo.Resource) ∧
      (rackAt (deleteAgentInformation l ai) ai.Location).map Rack.Allocated =
        some (rackAllocatedAt l ai.Location - oldInfo.Allocated) ∧
      (dataCenterAt (deleteAgentInformation l ai) ai.Location).map DataCenter.Resource =
        some (dataCenterResourceAt l ai.Location - oldInfo.Resource) ∧
      (dataCenterAt (deleteAgentInformation l ai) ai.Location).map DataCenter.Allocated =
        some (dataCenterAllocatedAt l ai.Location - oldInfo.Allocated) ∧
      (deleteAgentInformation l ai).Topology.Resource =
        l.Topology.Resource - oldInfo.Resource ∧
      (deleteAgentInformation l ai).Topology.Allocated =
        l.Topology.Allocated - oldInfo.Allocated ∧
      (deleteAgentInformation l ai).EventChan = l.EventChan ++ [eventOf ai] := by
  cases hd : l.Topology.dataCenters.lookup ai.Location.DataCenter with
  | none => simp [findAgentInformation, hd] at h
  | some dc =>
    cases hr : dc.racks.lookup ai.Location.Rack with
    | none => simp [findAgentInformation, hd, hr] at h
    | some rack =>
      have ha : rack.agents.lookup ai.Location.URL = some oldInfo := by
        simpa [findAgentInformation, hd, hr] using h
      rw [deleteAgentInformation_of_nonzero l ai dc rack oldInfo hd hr ha hz]
      simp [rackAt, dataCenterAt, rackResourceAt, rackAllocatedAt, dataCenterResourceAt,
        dataCenterAllocatedAt, AList.lookup_insert, hd, hr, eventOf]

/-- Deleting an agent that the lookup does not find changes nothing. -/
theorem deleteAgentInformation_of_not_found (l : LeaderResource R) (ai : AgentInformation R)
    (h : findAgentInformation l ai.Location = none) : deleteAgentInformation l ai = l := by
  cases hd : l.Topology.dataCenters.lookup ai.Location.DataCenter with
  | none => exact deleteAgentInformation_of_no_dataCenter l ai hd
  | some dc =>
    cases hr : dc.racks.lookup ai.Location.Rack with
    | none => exact deleteAgentInformation_of_no_rack l ai dc hd hr
    | some rack =>
      have ha : rack.agents.lookup ai.Location.URL = none := by
        simpa [findAgentInformation, hd, hr] using h
      exact deleteAgentInformation_of_no_agent l ai dc rack hd hr ha

/-- After the deletion of an agent stored with a `Resource` that is not zero
the lookup no longer finds it. -/
theorem find_after_delete_of_nonzero (l : LeaderResource R) (ai oldInfo : AgentInformation R)
    (h : findAgentInformation l ai.Location = some oldInfo) (hz : oldInfo.Resource ≠ 0) :
    findAgentInformation (deleteAgentInformation l ai) ai.Location = none := by
  cases hd : l.Topology.dataCenters.lookup ai.Location.DataCenter with
  | none => simp [findAgentInformation, hd] at h
  | some dc =>
    cases hr : dc.racks.lookup ai.Location.Rack with
    | none => simp [findAgentInformation, hd, hr] at h
    | some rack =>
      have ha : rack.agents.lookup ai.Location.URL = some oldInfo := by
        simpa [findAgentInformation, hd, hr] using h
      rw [deleteAgentInformation_of_nonzero l ai dc rack oldInfo hd hr ha hz]
      simp [findAgentInformation, AList.lookup_insert, AList.lookup_erase]

/-- A deletion that leaves the agent stored changes nothing. -/
theorem deleteAgentInformation_of_zero_found (l : LeaderResource R)
    (ai oldInfo : AgentInformation R)
    (h : findAgentInformation l ai.Location = some oldInfo) (hz : oldInfo.Resource = 0) :
    deleteAgentInformation l ai = l := by
  cases hd : l.Topology.dataCenters.lookup ai.Location.DataCenter with
  | none => simp [findAgentInformation, hd] at h
  | some dc =>
    cases hr : dc.racks.lookup ai.Location.Rack with
    | none => simp [findAgentInformation, hd, hr] at h
    | some rack =>
      have ha : rack.agents.lookup ai.Location.URL = some oldInfo := by
        simpa [findAgentInformation, hd, hr] using h
      exact deleteAgentInformation_of_zero l ai dc rack oldInfo hd hr ha hz

/-- Claim C9: deleting an agent whose datacenter, rack or address is not
present returns the tracker unchanged, maps, sums and events included; and a
second deletion in a row changes nothing more. -/
theorem delete_absent_is_noop (l : LeaderResource R) (ai : AgentInformation R) :
    ((l.Topology.dataCenters.lookup ai.Location.DataCenter = none ∨
      (∃ dc, l.Topology.dataCenters.lookup ai.Location.DataCenter = some dc ∧
        dc.racks.lookup ai.Location.Rack = none) ∨
      (∃ dc rack, l.Topology.dataCenters.lookup ai.Location.DataCenter = some dc ∧
        dc.racks.lookup ai.Location.Rack = some rack ∧
        rack.agents.lookup ai.Location.URL = none)) →
      deleteAgentInformation l ai = l) ∧
    deleteAgentInformation (deleteAgentInformation l ai) ai = deleteAgentInformation l ai := by
  constructor
  · intro h
    exact deleteAgentInformation_of_not_found l ai
      ((findAgentInformation_eq_none_iff l ai.Location).2 h)
  · cases h : findAgentInformation l ai.Location with
    | none => rw [deleteAgentInformation_of_not_found l ai h, deleteAgentInformation_of_not_found l ai h]
    | some oldInfo =>
      by_cases hz : oldInfo.Resource = 0
      · rw [deleteAgentInformation_of_zero_found l ai oldInfo h hz,
          deleteAgentInformation_of_zero_found l ai oldInfo h hz]
      · exact deleteAgentInformation_of_not_found _ ai
          (find_after_delete_of_nonzero l ai oldInfo h hz)

/-- Claim C1: from the tracker built by `NewLeaderResource`, after every
finite sequence of `UpdateAgentInformation` and `deleteAgentInformation`
calls the cached `Resource` of every rack is the sum of `Resource` over the
agents in its map, that of every datacenter the sum over the agents in its
racks, and that of the topology the sum over all stored agents. -/
theorem resource_aggregation_invariant (calls : List (Call R)) :
    ResourceAggregated (run (NewLeaderResource : LeaderResource R) calls).Topology :=
  run_aggregated calls NewLeaderResource NewLeaderResource_aggregated

end Tracker

/-! ### The code on concrete inputs -/

/-- Claim C10: the concrete scenario.  Registering agent A in datacenter "d1",
rack "r1" with `{cpu:4}` gives a topology cpu of 4; updating it to `{cpu:6}`
gives 6; deleting it gives 0 and the lookup of its location fails. -/
theorem concrete_scenario :
    tracker1.Topology.Resource.cpu = 4 ∧
      tracker2.Topology.Resource.cpu = 6 ∧
      tracker3.Topology.Resource.cpu = 0 ∧
      findAgentInformation tracker3 locationA = none := by
  decide

/-- Claim C2, the code at a failing input: agent A registers with `{cpu:4}`
and an allocation of 3.  The rack keeps a cached `Allocated` of zero while
its stored agents sum to 3, so the invariant for `Allocated` fails; deleting
the agent then leaves the topology with a cached `Allocated` of -3 and no
agent stored. -/
theorem allocated_not_aggregated :
    rackAllocatedAt (UpdateAgentInformation tracker0 (reportA 4 3) 100) locationA = 0 ∧
      (rackAt (UpdateAgentInformation tracker0 (reportA 4 3) 100) locationA).map agentsAllocated =
        some { cpu := 3, memory := 0 } ∧
      ¬ AllocatedAggregated
        (run tracker0 [Call.update (reportA 4 3) 100]).Topology ∧
      (run tracker0 [Call.update (reportA 4 3) 100, Call.delete (reportA 4 3)]).Topology.Allocated =
        { cpu := -3, memory := 0 } ∧
      topologyAgentsAllocated
        (run tracker0 [Call.update (reportA 4 3) 100, Call.delete (reportA 4 3)]).Topology = 0 := by
  decide

/-- Claim C3, the code at a failing input: agent A is stored with an
allocation of 0; the report `{cpu:4}` with an allocation of 5 is delivered
twice.  The second call sends no event and keeps the `Resource` sums, but it
raises the cached `Allocated` of the rack, the datacenter and the topology
from 5 to 10. -/
theorem repeated_report_raises_allocated :
    (UpdateAgentInformation tracker1 (reportA 4 5) 105).Topology.Allocated =
        { cpu := 5, memory := 0 } ∧
      (UpdateAgentInformation (UpdateAgentInformation tracker1 (reportA 4 5) 105)
          (reportA 4 5) 110).Topology.Allocated = { cpu := 10, memory := 0 } ∧
      rackAllocatedAt (UpdateAgentInformation tracker1 (reportA 4 5) 105) locationA =
        { cpu := 5, memory := 0 } ∧
      rackAllocatedAt (UpdateAgentInformation (UpdateAgentInformation tracker1 (reportA 4 5) 105)
          (reportA 4 5) 110) locationA = { cpu := 10, memory := 0 } ∧
      dataCenterAllocatedAt (UpdateAgentInformation tracker1 (reportA 4 5) 105) locationA =
        { cpu := 5, memory := 0 } ∧
      dataCenterAllocatedAt (UpdateAgentInformation
          (UpdateAgentInformation tracker1 (reportA 4 5) 105)
          (reportA 4 5) 110) locationA = { cpu := 10, memory := 0 } ∧
      (UpdateAgentInformation (UpdateAgentInformation tracker1 (reportA 4 5) 105)
          (reportA 4 5) 110).EventChan =
        (UpdateAgentInformation tracker1 (reportA 4 5) 105).EventChan ∧
      (UpdateAgentInformation (UpdateAgentInformation tracker1 (reportA 4 5) 105)
          (reportA 4 5) 110).Topology.Resource =
        (UpdateAgentInformation tracker1 (reportA 4 5) 105).Topology.Resource := by
  decide

/-- Claim C4, the code at a failing input: agent A is stored with a zero
`Resource`; after `deleteAgentInformation` the lookup still finds it. -/
theorem delete_keeps_zero_resource_agent :
    findAgentInformation (UpdateAgentInformation tracker0 (reportA 0 0) 100) locationA =
        some { reportA 0 0 with LastHeartBeat := 100 } ∧
      findAgentInformation
        (deleteAgentInformation (UpdateAgentInformation tracker0 (reportA 0 0) 100) (reportA 0 0))
        locationA = some { reportA 0 0 with LastHeartBeat := 100 } := by
  decide

/-- Claim C5, the code at a failing input: agent A registers with a zero
`Resource` and an allocation of 3 and then reports an allocation of 6, which
leaves it stored with `Resource` 0 and `Allocated` 3 under cached `Allocated`
sums of 3.  `deleteAgentInformation` leaves the three sums at 3 instead of
the previous value minus 3. -/
theorem delete_skips_allocated_of_zero_resource_agent :
    findAgentInformation
        (run tracker0 [Call.update (reportA 0 3) 100, Call.update (reportA 0 6) 105]) locationA =
        some { reportA 0 3 with LastHeartBeat := 105 } ∧
      rackAllocatedAt
        (run tracker0 [Call.update (reportA 0 3) 100, Call.update (reportA 0 6) 105]) locationA =
        { cpu := 3, memory := 0 } ∧
      rackAllocatedAt
        (run tracker0 [Call.update (reportA 0 3) 100, Call.update (reportA 0 6) 105,
          Call.delete (reportA 0 3)]) locationA = { cpu := 3, memory := 0 } ∧
      dataCenterAllocatedAt
        (run tracker0 [Call.update (reportA 0 3) 100, Call.update (reportA 0 6) 105,
          Call.delete (reportA 0 3)]) locationA = { cpu := 3, memory := 0 } ∧
      (run tracker0 [Call.update (reportA 0 3) 100, Call.update (reportA 0 6) 105,
          Call.delete (reportA 0 3)]).Topology.Allocated = { cpu := 3, memory := 0 } ∧
      ({ cpu := 3, memory := 0 } : ComputeResource) - (reportA 0 3).Allocated ≠
        { cpu := 3, memory := 0 } := by
  decide

/-- The registration of agent A on the empty tracker, an instance of claim C7. -/
theorem update_new_sums_witness :
    findAgentInformation tracker0 (reportA 4 0).Location = none ∧
      (rackAt tracker1 (reportA 4 0).Location).map Rack.Resource =
        some (rackResourceAt tracker0 (reportA 4 0).Location + (reportA 4 0).Resource) :=
  ⟨by decide, (update_new_sums tracker0 (reportA 4 0) 100 (by decide)).1⟩

/-- The registration of agent A with `{cpu:4}` on the empty tracker sends its
one event, an instance of the amended claim C8. -/
theorem update_new_event_witness :
    findAgentInformation tracker0 (reportA 4 0).Location = none ∧
      (reportA 4 0).Resource ≠ 0 ∧
      tracker1.EventChan = tracker0.EventChan ++ [{ DataCenter := "d1", Rack := "r1" }] :=
  ⟨by decide, by decide, (update_new_event tracker0 (reportA 4 0) 100 (by decide)).1 (by decide)⟩

/-- Deleting agent A from the empty tracker changes nothing, an instance of
claim C9. -/
theorem delete_absent_is_noop_witness :
    tracker0.Topology.dataCenters.lookup (reportA 4 0).Location.DataCenter = none ∧
      deleteAgentInformation tracker0 (reportA 4 0) = tracker0 :=
  ⟨rfl, (delete_absent_is_noop tracker0 (reportA 4 0)).1 (Or.inl rfl)⟩

/-- Claim C8 as stated fails: registering agent A with a zero capacity at the
empty tracker, where no agent is stored, sends no event at all. -/
theorem update_new_zero_sends_nothing :
    findAgentInformation tracker0 (reportA 0 0).Location = none ∧
      (UpdateAgentInformation tracker0 (reportA 0 0) 100).EventChan = tracker0.EventChan ∧
      (UpdateAgentInformation tracker0 (reportA 0 0) 100).EventChan ≠
        tracker0.EventChan ++ [{ DataCenter := "d1", Rack := "r1" }] := by
  decide

/-- The update of agent A from `{cpu:4}` to `{cpu:6}`, an instance of claim C6. -/
theorem update_existing_delta_witness :
    findAgentInformation tracker1 (reportA 6 0).Location =
        some { reportA 4 0 with LastHeartBeat := 100 } ∧
      (rackAt tracker2 locationA).map Rack.Resource =
        some (rackResourceAt tracker1 locationA +
          ((reportA 6 0).Resource - (reportA 4 0).Resource)) :=
  ⟨by decide,
    (update_existing_delta tracker1 (reportA 6 0) { reportA 4 0 with LastHeartBeat := 100 } 105
      (by decide)).1.1⟩

section MapCopy

variable {V : Type}

/-- Writing the entries of a list with distinct keys one after the other into a
map binds every key of the list to its value and keeps the other bindings. -/
theorem lookup_foldl_insert (k : String) :
    ∀ (es : List (Σ _ : String, V)) (s : GoMap V), es.NodupKeys →
      (es.foldl (fun s e => s.insert e.1 e.2) s).lookup k =
        (List.dlookup k es).orElse fun _ => s.lookup k
  | [], s, _ => by simp
  | ⟨k', v'⟩ :: es, s, h => by
    rw [List.nodupKeys_cons] at h
    rw [List.foldl_cons, lookup_foldl_insert k es _ h.2]
    by_cases hk : k = k'
    · subst hk
      have hnone : List.dlookup k es = none := List.dlookup_eq_none.2 h.1
      simp [hnone, List.dlookup_cons_eq]
    · rw [List.dlookup_cons_ne _ _ hk, AList.lookup_insert_ne hk]

/-- The copy of a map binds every key as the map does. -/
theorem GoMap.lookup_copy (m : GoMap V) (k : String) : m.copy.lookup k = m.lookup k := by
  unfold GoMap.copy
  rw [lookup_foldl_insert k m.entries ∅ m.nodupKeys]
  cases h : List.dlookup k m.entries with
  | none =>
    have : m.lookup k = none := h
    simp [this]
  | some v =>
    have : m.lookup k = some v := h
    simp [this]

end MapCopy

section Accessors

variable {R : Type}

/-- Claim C17: after `AddAgent(a)` the rack returns `a` for the address of `a`;
after `DropAgent(a)` it finds nothing there; both leave `GetAgent` at every
other key as it was; and `Agents()` returns a map with the bindings of the
rack's own map. -/
theorem rack_accessors (r : Rack R) (a : AgentInformation R) :
    (r.AddAgent a).GetAgent a.Location.URL = some a ∧
    (r.DropAgent a).GetAgent a.Location.URL = none ∧
    (∀ k, k ≠ a.Location.URL →
      (r.AddAgent a).GetAgent k = r.GetAgent k ∧ (r.DropAgent a).GetAgent k = r.GetAgent k) ∧
    (∀ k, r.Agents.lookup k = r.GetAgent k) := by
  refine ⟨?_, ?_, ?_, ?_⟩
  · simp [Rack.AddAgent, Rack.GetAgent, AList.lookup_insert]
  · simp [Rack.DropAgent, Rack.GetAgent, AList.lookup_erase]
  · intro k hk
    simp [Rack.AddAgent, Rack.DropAgent, Rack.GetAgent, AList.lookup_insert_ne hk,
      AList.lookup_erase_ne hk]
  · intro k
    exact GoMap.lookup_copy r.agents k

end Accessors

section Contains

variable {R : Type} [AddCommGroup R]

/-- `ContainsDataCenters` answers `true` on the topology of `NewTopology` and
`false` after every `AddDataCenter`: line 61 compares the length with zero
for equality. -/
theorem containsDataCenters_inverted :
    (NewTopology : Topology R).ContainsDataCenters = true ∧
      ∀ (tp : Topology R) (dc : DataCenter R),
        (tp.AddDataCenter dc).ContainsDataCenters = false := by
  refine ⟨rfl, ?_⟩
  intro tp dc
  simp [Topology.ContainsDataCenters, Topology.AddDataCenter, GoMap.len]

end Contains

section Stored

variable {R : Type} [AddCommGroup R] [DecidableEq R]

/-- The stored entry carries the time of the call after lines 74 and 78. -/
theorem storedEntry_LastHeartBeat (old : Option (AgentInformation R)) (ai : AgentInformation R)
    (now : Time) : (storedEntry old ai now).LastHeartBeat = now := by
  cases old <;> rfl

/-- The `Allocated` of the stored entry: that of the old entry when there is
one, that of the report otherwise. -/
theorem storedEntry_Allocated (old : Option (AgentInformation R)) (ai : AgentInformation R)
    (now : Time) :
    (storedEntry old ai now).Allocated =
      match old with
      | some oldInfo => oldInfo.Allocated
      | none => ai.Allocated := by
  cases old with
  | none => rfl
  | some o =>
    by_cases h : ai.Resource - o.Resource = 0 <;> simp [storedEntry, deltaResourceOf, h]

/-- Claim C12: after `UpdateAgentInformation(ai)` at time `now` the lookup of
the location of `ai` finds an entry with the reported `Resource` and with
`LastHeartBeat = now`, for a new agent and for a stored one. -/
theorem update_then_find (l : LeaderResource R) (ai : AgentInformation R) (now : Time) :
    ∃ e, findAgentInformation (UpdateAgentInformation l ai now) ai.Location = some e ∧
      e.Resource = ai.Resource ∧ e.LastHeartBeat = now :=
  ⟨_, find_after_update l ai now, storedEntry_Resource _ ai now,
    storedEntry_LastHeartBeat _ ai now⟩

end Stored

/-- Claim C11, the code at a failing input: agent A is stored with an
allocation of 0 and reports `{cpu:4}` with an allocation of 5.  The entry
found afterwards still has an allocation of 0.  For a new agent the stored
allocation is the reported one. -/
theorem stored_allocated_is_stale :
    (findAgentInformation tracker1 locationA).map AgentInformation.Allocated =
        some { cpu := 0, memory := 0 } ∧
      (findAgentInformation (UpdateAgentInformation tracker1 (reportA 4 5) 105)
          locationA).map AgentInformation.Allocated = some { cpu := 0, memory := 0 } ∧
      (reportA 4 5).Allocated = { cpu := 5, memory := 0 } ∧
      (findAgentInformation (UpdateAgentInformation tracker0 (reportA 4 5) 105)
          locationA).map AgentInformation.Allocated = some { cpu := 5, memory := 0 } := by
  decide

/-- Claim C20, the code at a failing input: the empty topology is reported to
contain datacenters and the topology with the datacenter "d1" is reported to
contain none. -/
theorem containsDataCenters_at_inputs :
    (NewTopology : Topology ComputeResource).ContainsDataCenters = true ∧
      ((NewTopology : Topology ComputeResource).AddDataCenter
        (NewDataCenter "d1")).ContainsDataCenters = false := by
  decide

/-- Dropping agent A from a rack that also holds an agent at another address
leaves that agent in place, an instance of claim C17. -/
theorem rack_accessors_witness :
    ("10.0.0.2:8931" : String) ≠ (reportA 4 0).Location.URL ∧
      (((NewRack "r1" : Rack ComputeResource).AddAgent
          { reportA 2 0 with Location := { locationA with Address := "10.0.0.2:8931" } }).AddAgent
            (reportA 4 0)).GetAgent "10.0.0.2:8931" =
        ((NewRack "r1" : Rack ComputeResource).AddAgent
          { reportA 2 0 with Location := { locationA with Address := "10.0.0.2:8931" } }).GetAgent
            "10.0.0.2:8931" :=
  ⟨by decide,
    ((rack_accessors ((NewRack "r1" : Rack ComputeResource).AddAgent
      { reportA 2 0 with Location := { locationA with Address := "10.0.0.2:8931" } })
      (reportA 4 0)).2.2.1 "10.0.0.2:8931" (by decide)).1⟩

section Frame

variable {R : Type} [AddCommGroup R]

/-- The racks of the working datacenter are those stored under its name. -/
theorem workingDataCenter_racks_lookup (l : LeaderResource R) (ai : AgentInformation R)
    (location : Location) (h : location.DataCenter = ai.Location.DataCenter) :
    (workingDataCenter l ai).racks.lookup location.Rack = rackAt l location := by
  cases hd : l.Topology.dataCenters.lookup ai.Location.DataCenter with
  | none =>
    have hd2 := hd
    rw [← h] at hd2
    simp [workingDataCenter, rackAt, dataCenterAt, hd, hd2]
  | some dc =>
    have hd2 := hd
    rw [← h] at hd2
    simp [workingDataCenter, rackAt, dataCenterAt, hd, hd2]

/-- The agents of the working rack are those stored under its names. -/
theorem workingRack_agents_lookup (l : LeaderResource R) (ai : AgentInformation R)
    (location : Location) (hd : location.DataCenter = ai.Location.DataCenter)
    (hr : location.Rack = ai.Location.Rack) :
    (workingRack (workingDataCenter l ai) ai).agents.lookup location.URL =
      findAgentInformation l location := by
  cases hd' : l.Topology.dataCenters.lookup ai.Location.DataCenter with
  | none =>
    have hd2 := hd'
    rw [← hd] at hd2
    simp [workingRack, workingDataCenter, findAgentInformation, hd', hd2]
  | some dc =>
    have hd2 := hd'
    rw [← hd] at hd2
    cases hr' : dc.racks.lookup ai.Location.Rack with
    | none =>
      have hr2 := hr'
      rw [← hr] at hr2
      simp [workingRack, workingDataCenter, findAgentInformation, hd', hd2, hr', hr2]
    | some rack =>
      have hr2 := hr'
      rw [← hr] at hr2
      simp [workingRack, workingDataCenter, findAgentInformation, hd', hd2, hr', hr2]

variable [DecidableEq R]

/-- An update leaves every other datacenter as it is. -/
theorem dataCenterAt_update_of_ne (l : LeaderResource R) (ai : AgentInformation R) (now : Time)
    (location : Location) (h : location.DataCenter ≠ ai.Location.DataCenter) :
    dataCenterAt (UpdateAgentInformation l ai now) location = dataCenterAt l location := by
  simp only [dataCenterAt, UpdateAgentInformation, AList.lookup_insert_ne h]

/-- An update leaves every other rack as it is. -/
theorem rackAt_update_of_ne (l : LeaderResource R) (ai : AgentInformation R) (now : Time)
    (location : Location)
    (h : location.DataCenter ≠ ai.Location.DataCenter ∨ location.Rack ≠ ai.Location.Rack) :
    rackAt (UpdateAgentInformation l ai now) location = rackAt l location := by
  by_cases hd : location.DataCenter = ai.Location.DataCenter
  · have hr : location.Rack ≠ ai.Location.Rack := h.resolve_left (fun hn => hn hd)
    rw [← workingDataCenter_racks_lookup l ai location hd]
    simp only [rackAt, dataCenterAt, UpdateAgentInformation]
    rw [hd, AList.lookup_insert]
    simp only [AList.lookup_insert_ne hr]
  · have hdc := dataCenterAt_update_of_ne l ai now location hd
    simp only [rackAt, hdc]

/-- A location differs from another in one of its three components. -/
theorem location_ne_cases (a b : Location) (h : a ≠ b) :
    a.DataCenter ≠ b.DataCenter ∨ a.Rack ≠ b.Rack ∨ a.URL ≠ b.URL := by
  by_contra hc
  push_neg at hc
  apply h
  cases a; cases b
  simp only [Location.URL] at hc
  simp only [Location.mk.injEq]
  exact hc

/-- An update leaves the entry stored at every other location as it is. -/
theorem find_update_of_ne (l : LeaderResource R) (ai : AgentInformation R) (now : Time)
    (location : Location) (h : location ≠ ai.Location) :
    findAgentInformation (UpdateAgentInformation l ai now) location =
      findAgentInformation l location := by
  have hfind : ∀ s : LeaderResource R, findAgentInformation s location =
      match rackAt s location with
      | none => none
      | some r => r.agents.lookup location.URL := by
    intro s
    cases hd : s.Topology.dataCenters.lookup location.DataCenter <;>
      simp [findAgentInformation, rackAt, dataCenterAt, hd]
  by_cases hdr : location.DataCenter = ai.Location.DataCenter ∧ location.Rack = ai.Location.Rack
  · have hu : location.URL ≠ ai.Location.URL := by
      rcases location_ne_cases _ _ h with h1 | h1 | h1
      · exact absurd hdr.1 h1
      · exact absurd hdr.2 h1
      · exact h1
    rw [← workingRack_agents_lookup l ai location hdr.1 hdr.2]
    simp only [findAgentInformation, UpdateAgentInformation]
    rw [hdr.1, AList.lookup_insert]
    simp only []
    rw [hdr.2, AList.lookup_insert]
    simp only [AList.lookup_insert_ne hu]
  · have hne : location.DataCenter ≠ ai.Location.DataCenter ∨
        location.Rack ≠ ai.Location.Rack := by
      by_contra hc
      push_neg at hc
      exact hdr hc
    rw [hfind, hfind, rackAt_update_of_ne l ai now location hne]

/-- A deletion changes nothing, or it runs lines 125-134 on the entry found. -/
theorem deleteAgentInformation_cases (l : LeaderResource R) (ai : AgentInformation R) :
    deleteAgentInformation l ai = l ∨
      ∃ dc rack oldInfo,
        l.Topology.dataCenters.lookup ai.Location.DataCenter = some dc ∧
        dc.racks.lookup ai.Location.Rack = some rack ∧
        rack.agents.lookup ai.Location.URL = some oldInfo ∧
        deleteAgentInformation l ai =
          { l with
            Topology :=
              { Resource := l.Topology.Resource - oldInfo.Resource
                Allocated := l.Topology.Allocated - oldInfo.Allocated
                dataCenters := l.Topology.dataCenters.insert ai.Location.DataCenter
                  { dc with
                    racks := dc.racks.insert ai.Location.Rack
                      { rack with
                        agents := rack.agents.erase ai.Location.URL
                        Resource := rack.Resource - oldInfo.Resource
                        Allocated := rack.Allocated - oldInfo.Allocated }
                    Resource := dc.Resource - oldInfo.Resource
                    Allocated := dc.Allocated - oldInfo.Allocated } }
            EventChan :=
              l.EventChan ++
                [{ DataCenter := ai.Location.DataCenter, Rack := ai.Location.Rack }] } := by
  cases hd : l.Topology.dataCenters.lookup ai.Location.DataCenter with
  | none => exact Or.inl (deleteAgentInformation_of_no_dataCenter l ai hd)
  | some dc =>
    cases hr : dc.racks.lookup ai.Location.Rack with
    | none => exact Or.inl (deleteAgentInformation_of_no_rack l ai dc hd hr)
    | some rack =>
      cases ha : rack.agents.lookup ai.Location.URL with
      | none => exact Or.inl (deleteAgentInformation_of_no_agent l ai dc rack hd hr ha)
      | some oldInfo =>
        by_cases hz : oldInfo.Resource = 0
        · exact Or.inl (deleteAgentInformation_of_zero l ai dc rack oldInfo hd hr ha hz)
        · exact Or.inr ⟨dc, rack, oldInfo, rfl, hr, ha,
            deleteAgentInformation_of_nonzero l ai dc rack oldInfo hd hr ha hz⟩

/-- A deletion leaves every other datacenter as it is. -/
theorem dataCenterAt_delete_of_ne (l : LeaderResource R) (ai : AgentInformation R)
    (location : Location) (h : location.DataCenter ≠ ai.Location.DataCenter) :
    dataCenterAt (deleteAgentInformation l ai) location = dataCenterAt l location := by
  rcases deleteAgentInformation_cases l ai with he | ⟨dc, rack, oldInfo, _, _, _, he⟩
  · rw [he]
  · rw [he]
    simp only [dataCenterAt, AList.lookup_insert_ne h]

/-- A deletion leaves every other rack as it is. -/
theorem rackAt_delete_of_ne (l : LeaderResource R) (ai : AgentInformation R)
    (location : Location)
    (h : location.DataCenter ≠ ai.Location.DataCenter ∨ location.Rack ≠ ai.Location.Rack) :
    rackAt (deleteAgentInformation l ai) location = rackAt l location := by
  rcases deleteAgentInformation_cases l ai with he | ⟨dc, rack, oldInfo, hd, _, _, he⟩
  · rw [he]
  · rw [he]
    by_cases hdc : location.DataCenter = ai.Location.DataCenter
    · have hr : location.Rack ≠ ai.Location.Rack := h.resolve_left (fun hn => hn hdc)
      simp only [rackAt, dataCenterAt]
      rw [hdc, AList.lookup_insert, hd]
      simp only [AList.lookup_insert_ne hr]
    · simp only [rackAt, dataCenterAt, AList.lookup_insert_ne hdc]

/-- A deletion leaves the entry stored at every other location as it is. -/
theorem find_delete_of_ne (l : LeaderResource R) (ai : AgentInformation R)
    (location : Location) (h : location ≠ ai.Location) :
    findAgentInformation (deleteAgentInformation l ai) location =
      findAgentInformation l location := by
  rcases deleteAgentInformation_cases l ai with he | ⟨dc, rack, oldInfo, hd, hr, _, he⟩
  · rw [he]
  · rw [he]
    by_cases hdc : location.DataCenter = ai.Location.DataCenter
    · by_cases hrk : location.Rack = ai.Location.Rack
      · have hu : location.URL ≠ ai.Location.URL := by
          rcases location_ne_cases _ _ h with h1 | h1 | h1
          · exact absurd hdc h1
          · exact absurd hrk h1
          · exact h1
        simp only [findAgentInformation]
        rw [hdc, AList.lookup_insert, hd]
        simp only []
        rw [hrk, AList.lookup_insert, hr]
        simp only [AList.lookup_erase_ne hu]
      · simp only [findAgentInformation]
        rw [hdc, AList.lookup_insert, hd]
        simp only [AList.lookup_insert_ne hrk]
    · simp only [findAgentInformation, AList.lookup_insert_ne hdc]

end Frame

section Containers

variable {R : Type} [AddCommGroup R] [DecidableEq R]

/-- After an update the datacenter named in the report is there. -/
theorem dataCenterAt_update_isSome (l : LeaderResource R) (ai : AgentInformation R) (now : Time)
    (location : Location) (h : location.DataCenter = ai.Location.DataCenter) :
    (dataCenterAt (UpdateAgentInformation l ai now) location).isSome = true := by
  simp only [dataCenterAt, UpdateAgentInformation]
  rw [h, AList.lookup_insert]
  rfl

/-- After an update the rack named in the report is there. -/
theorem rackAt_update_isSome (l : LeaderResource R) (ai : AgentInformation R) (now : Time)
    (location : Location) (hd : location.DataCenter = ai.Location.DataCenter)
    (hr : location.Rack = ai.Location.Rack) :
    (rackAt (UpdateAgentInformation l ai now) location).isSome = true := by
  simp only [rackAt, dataCenterAt, UpdateAgentInformation]
  rw [hd, AList.lookup_insert]
  simp only []
  rw [hr, AList.lookup_insert]
  rfl

/-- A deletion keeps every datacenter. -/
theorem dataCenterAt_delete_isSome (l : LeaderResource R) (ai : AgentInformation R)
    (location : Location) (h : (dataCenterAt l location).isSome = true) :
    (dataCenterAt (deleteAgentInformation l ai) location).isSome = true := by
  by_cases hd : location.DataCenter = ai.Location.DataCenter
  · rcases deleteAgentInformation_cases l ai with he | ⟨dc, rack, oldInfo, _, _, _, he⟩
    · rw [he]; exact h
    · rw [he]
      simp only [dataCenterAt]
      rw [hd, AList.lookup_insert]
      rfl
  · rw [dataCenterAt_delete_of_ne l ai location hd]; exact h

/-- A deletion keeps every rack. -/
theorem rackAt_delete_isSome (l : LeaderResource R) (ai : AgentInformation R)
    (location : Location) (h : (rackAt l location).isSome = true) :
    (rackAt (deleteAgentInformation l ai) location).isSome = true := by
  by_cases hdr : location.DataCenter = ai.Location.DataCenter ∧ location.Rack = ai.Location.Rack
  · rcases deleteAgentInformation_cases l ai with he | ⟨dc, rack, oldInfo, _, _, _, he⟩
    · rw [he]; exact h
    · rw [he]
      simp only [rackAt, dataCenterAt]
      rw [hdr.1, AList.lookup_insert]
      simp only []
      rw [hdr.2, AList.lookup_insert]
      rfl
  · have hne : location.DataCenter ≠ ai.Location.DataCenter ∨
        location.Rack ≠ ai.Location.Rack := by
      by_contra hc
      push_neg at hc
      exact hdr hc
    rw [rackAt_delete_of_ne l ai location hne]; exact h

/-- Claim C16: after `UpdateAgentInformation(ai)` the datacenter and the rack
named in `ai.Location` exist; and every datacenter and every rack present
before an `UpdateAgentInformation` or a `deleteAgentInformation` call is
present after it. -/
theorem containers_created_and_kept (l : LeaderResource R) (ai : AgentInformation R)
    (now : Time) :
    (dataCenterAt (UpdateAgentInformation l ai now) ai.Location).isSome = true ∧
    (rackAt (UpdateAgentInformation l ai now) ai.Location).isSome = true ∧
    ∀ location : Location,
      ((dataCenterAt l location).isSome = true →
        (dataCenterAt (UpdateAgentInformation l ai now) location).isSome = true ∧
        (dataCenterAt (deleteAgentInformation l ai) location).isSome = true) ∧
      ((rackAt l location).isSome = true →
        (rackAt (UpdateAgentInformation l ai now) location).isSome = true ∧
        (rackAt (deleteAgentInformation l ai) location).isSome = true) := by
  refine ⟨dataCenterAt_update_isSome l ai now _ rfl, rackAt_update_isSome l ai now _ rfl rfl, ?_⟩
  intro location
  constructor
  · intro h
    refine ⟨?_, dataCenterAt_delete_isSome l ai location h⟩
    by_cases hd : location.DataCenter = ai.Location.DataCenter
    · exact dataCenterAt_update_isSome l ai now location hd
    · rw [dataCenterAt_update_of_ne l ai now location hd]; exact h
  · intro h
    refine ⟨?_, rackAt_delete_isSome l ai location h⟩
    by_cases hdr : location.DataCenter = ai.Location.DataCenter ∧
        location.Rack = ai.Location.Rack
    · exact rackAt_update_isSome l ai now location hdr.1 hdr.2
    · have hne : location.DataCenter ≠ ai.Location.DataCenter ∨
          location.Rack ≠ ai.Location.Rack := by
        by_contra hc
        push_neg at hc
        exact hdr hc
      rw [rackAt_update_of_ne l ai now location hne]; exact h

/-- Claim C19: `UpdateAgentInformation(ai)` and `deleteAgentInformation(ai)`
leave as it is every rack other than the one named in `ai.Location`, with its
`Resource`, its `Allocated` and its agents; every datacenter other than the one
named there, with its `Resource` and `Allocated`; and every stored entry at a
location other than `ai.Location`, so every other address of the same rack. -/
theorem mutation_frame (l : LeaderResource R) (ai : AgentInformation R) (now : Time)
    (location : Location) :
    (location.DataCenter ≠ ai.Location.DataCenter ∨ location.Rack ≠ ai.Location.Rack →
      rackAt (UpdateAgentInformation l ai now) location = rackAt l location ∧
      rackAt (deleteAgentInformation l ai) location = rackAt l location) ∧
    (location.DataCenter ≠ ai.Location.DataCenter →
      dataCenterAt (UpdateAgentInformation l ai now) location = dataCenterAt l location ∧
      dataCenterAt (deleteAgentInformation l ai) location = dataCenterAt l location) ∧
    (location ≠ ai.Location →
      findAgentInformation (UpdateAgentInformation l ai now) location =
        findAgentInformation l location ∧
      findAgentInformation (deleteAgentInformation l ai) location =
        findAgentInformation l location) :=
  ⟨fun h => ⟨rackAt_update_of_ne l ai now location h, rackAt_delete_of_ne l ai location h⟩,
    fun h => ⟨dataCenterAt_update_of_ne l ai now location h,
      dataCenterAt_delete_of_ne l ai location h⟩,
    fun h => ⟨find_update_of_ne l ai now location h, find_delete_of_ne l ai location h⟩⟩

end Containers

/-- The rack "r1" is still there after the deletion of its last agent: an
  instance of claim C16. -/
theorem containers_created_and_kept_witness :
    (rackAt tracker2 locationA).isSome = true ∧
      (rackAt (deleteAgentInformation tracker2 (reportA 4 0)) locationA).isSome = true :=
  ⟨by decide,
    (((containers_created_and_kept tracker2 (reportA 4 0) 0).2.2 locationA).2 (by decide)).2⟩

/-- A report of agent B leaves the entry of agent A in the same rack as it
is, an instance of claim C19. -/
theorem mutation_frame_witness :
    locationA ≠ (reportB 2 0).Location ∧
      findAgentInformation (UpdateAgentInformation tracker1 (reportB 2 0) 105) locationA =
        findAgentInformation tracker1 locationA :=
  ⟨by decide, ((mutation_frame tracker1 (reportB 2 0) 105 locationA).2.2 (by decide)).1⟩

section CrossLevel

variable {R : Type} [AddCommGroup R]

/-- Adding the same amount to a cached sum of a rack, of its datacenter and of
the topology, the containers being stored ones or fresh ones with a zero sum,
keeps each level the sum of the level below. -/
theorem consistent_step (fr : Rack R → R) (fd : DataCenter R → R)
    (dcs dcs1 : GoMap (DataCenter R)) (T T1 : R) (dcName rackName : String)
    (dc dc1 : DataCenter R) (rack rack1 : Rack R) (delta : R)
    (hT : T = sumValues fd dcs)
    (hall : ∀ d ∈ dcs.entries, fd d.2 = sumValues fr d.2.racks)
    (hdc : dcs.lookup dcName = some dc ∨
      (dcs.lookup dcName = none ∧ fd dc = 0 ∧ dc.racks = ∅))
    (hrack : dc.racks.lookup rackName = some rack ∨
      (dc.racks.lookup rackName = none ∧ fr rack = 0))
    (h1 : fr rack1 = fr rack + delta) (h2 : fd dc1 = fd dc + delta)
    (h3 : dc1.racks = dc.racks.insert rackName rack1)
    (hT1 : T1 = T + delta) (hdcs1 : dcs1 = dcs.insert dcName dc1) :
    T1 = sumValues fd dcs1 ∧ ∀ d ∈ dcs1.entries, fd d.2 = sumValues fr d.2.racks := by
  have hdcsum : fd dc = sumValues fr dc.racks := by
    rcases hdc with hs | ⟨_, hz, he⟩
    · exact hall _ (mem_entries_of_lookup _ _ _ hs)
    · rw [hz, he]; rfl
  have hracks : sumValues fr (dc.racks.insert rackName rack1) + fr rack =
      fr rack1 + sumValues fr dc.racks := by
    rcases hrack with hs | ⟨hn, hz⟩
    · exact sumValues_insert_of_some fr dc.racks rackName rack1 rack hs
    · rw [sumValues_insert_of_none fr dc.racks rackName rack1 hn, hz, add_zero]
  have hdcs : sumValues fd (dcs.insert dcName dc1) + fd dc = fd dc1 + sumValues fd dcs := by
    rcases hdc with hs | ⟨hn, hz, _⟩
    · exact sumValues_insert_of_some fd dcs dcName dc1 dc hs
    · rw [sumValues_insert_of_none fd dcs dcName dc1 hn, hz, add_zero]
  have hdc1 : fd dc1 = sumValues fr dc1.racks := by
    rw [h3, eq_sub_of_add_eq hracks, h2, h1, hdcsum]
    abel
  subst hdcs1
  refine ⟨?_, ?_⟩
  · rw [hT1, hT, eq_sub_of_add_eq hdcs, h2]
    abel
  · intro d hd
    rcases mem_insert_entries _ _ _ _ hd with rfl | hd
    · exact hdc1
    · exact hall d hd

/-- The working datacenter of an update is the stored one, or it is fresh. -/
theorem workingDataCenter_cases (l : LeaderResource R) (ai : AgentInformation R) :
    l.Topology.dataCenters.lookup ai.Location.DataCenter = some (workingDataCenter l ai) ∨
      (l.Topology.dataCenters.lookup ai.Location.DataCenter = none ∧
        (workingDataCenter l ai).Resource = 0 ∧ (workingDataCenter l ai).Allocated = 0 ∧
        (workingDataCenter l ai).racks = ∅) := by
  cases hd : l.Topology.dataCenters.lookup ai.Location.DataCenter <;>
    simp [workingDataCenter, hd]

/-- The working rack of an update is the stored one, or it is fresh. -/
theorem workingRack_cases (dc : DataCenter R) (ai : AgentInformation R) :
    dc.racks.lookup ai.Location.Rack = some (workingRack dc ai) ∨
      (dc.racks.lookup ai.Location.Rack = none ∧
        (workingRack dc ai).Resource = 0 ∧ (workingRack dc ai).Allocated = 0 ∧
        (workingRack dc ai).agents = ∅) := by
  cases hr : dc.racks.lookup ai.Location.Rack <;> simp [workingRack, hr]

variable [DecidableEq R]

/-- Lines 91-98 add to a cached sum what they add to zero. -/
theorem bumpAllocated_eq (old : Option (AgentInformation R)) (ai : AgentInformation R) (x : R) :
    bumpAllocated old ai x = x + bumpAllocated old ai 0 := by
  cases old with
  | none => simp [bumpAllocated]
  | some o =>
    by_cases h : ai.Allocated - o.Allocated = 0 <;> simp [bumpAllocated, h]

/-- An update keeps the cached `Resource` sums consistent across the levels. -/
theorem UpdateAgentInformation_resourceConsistent (l : LeaderResource R)
    (ai : AgentInformation R) (now : Time) (h : ResourceConsistent l.Topology) :
    ResourceConsistent (UpdateAgentInformation l ai now).Topology :=
  consistent_step Rack.Resource DataCenter.Resource l.Topology.dataCenters _
    l.Topology.Resource _ ai.Location.DataCenter ai.Location.Rack
    (workingDataCenter l ai) _ (workingRack (workingDataCenter l ai) ai) _
    (deltaResourceOf
      ((workingRack (workingDataCenter l ai) ai).agents.lookup ai.Location.URL) ai)
    h.1 h.2
    ((workingDataCenter_cases l ai).imp id fun hc => ⟨hc.1, hc.2.1, hc.2.2.2⟩)
    ((workingRack_cases (workingDataCenter l ai) ai).imp id fun hc => ⟨hc.1, hc.2.1⟩)
    (bumpResource_eq _ _) (bumpResource_eq _ _) rfl (bumpResource_eq _ _) rfl

/-- An update keeps the cached `Allocated` sums consistent across the levels. -/
theorem UpdateAgentInformation_allocatedConsistent (l : LeaderResource R)
    (ai : AgentInformation R) (now : Time) (h : AllocatedConsistent l.Topology) :
    AllocatedConsistent (UpdateAgentInformation l ai now).Topology :=
  consistent_step Rack.Allocated DataCenter.Allocated l.Topology.dataCenters _
    l.Topology.Allocated _ ai.Location.DataCenter ai.Location.Rack
    (workingDataCenter l ai) _ (workingRack (workingDataCenter l ai) ai) _
    (bumpAllocated
      ((workingRack (workingDataCenter l ai) ai).agents.lookup ai.Location.URL) ai 0)
    h.1 h.2
    ((workingDataCenter_cases l ai).imp id fun hc => ⟨hc.1, hc.2.2.1, hc.2.2.2⟩)
    ((workingRack_cases (workingDataCenter l ai) ai).imp id fun hc => ⟨hc.1, hc.2.2.1⟩)
    (bumpAllocated_eq _ _ _) (bumpAllocated_eq _ _ _) rfl (bumpAllocated_eq _ _ _) rfl

/-- A deletion keeps the cached `Resource` sums consistent across the levels. -/
theorem deleteAgentInformation_resourceConsistent (l : LeaderResource R)
    (ai : AgentInformation R) (h : ResourceConsistent l.Topology) :
    ResourceConsistent (deleteAgentInformation l ai).Topology := by
  rcases deleteAgentInformation_cases l ai with he | ⟨dc, rack, oldInfo, hd, hr, _, he⟩
  · rw [he]; exact h
  · rw [he]
    exact consistent_step Rack.Resource DataCenter.Resource l.Topology.dataCenters _
      l.Topology.Resource _ ai.Location.DataCenter ai.Location.Rack dc _ rack _
      (-oldInfo.Resource) h.1 h.2 (Or.inl hd) (Or.inl hr)
      (sub_eq_add_neg _ _) (sub_eq_add_neg _ _) rfl (sub_eq_add_neg _ _) rfl

/-- A deletion keeps the cached `Allocated` sums consistent across the levels. -/
theorem deleteAgentInformation_allocatedConsistent (l : LeaderResource R)
    (ai : AgentInformation R) (h : AllocatedConsistent l.Topology) :
    AllocatedConsistent (deleteAgentInformation l ai).Topology := by
  rcases deleteAgentInformation_cases l ai with he | ⟨dc, rack, oldInfo, hd, hr, _, he⟩
  · rw [he]; exact h
  · rw [he]
    exact consistent_step Rack.Allocated DataCenter.Allocated l.Topology.dataCenters _
      l.Topology.Allocated _ ai.Location.DataCenter ai.Location.Rack dc _ rack _
      (-oldInfo.Allocated) h.1 h.2 (Or.inl hd) (Or.inl hr)
      (sub_eq_add_neg _ _) (sub_eq_add_neg _ _) rfl (sub_eq_add_neg _ _) rfl

/-- Every run keeps both kinds of cached sums consistent across the levels. -/
theorem run_consistent (calls : List (Call R)) :
    ∀ l : LeaderResource R, ResourceConsistent l.Topology ∧ AllocatedConsistent l.Topology →
      ResourceConsistent (run l calls).Topology ∧ AllocatedConsistent (run l calls).Topology := by
  induction calls with
  | nil => intro l h; exact h
  | cons c cs ih =>
    intro l h
    apply ih
    cases c with
    | update ai now =>
      exact ⟨UpdateAgentInformation_resourceConsistent l ai now h.1,
        UpdateAgentInformation_allocatedConsistent l ai now h.2⟩
    | delete ai =>
      exact ⟨deleteAgentInformation_resourceConsistent l ai h.1,
        deleteAgentInformation_allocatedConsistent l ai h.2⟩

/-- Claim C18: from the empty tracker, after every finite sequence of
`UpdateAgentInformation` and `deleteAgentInformation` calls the cached
`Resource` of the topology is the sum of the cached `Resource` of its
datacenters and that of every datacenter the sum over its racks, and the same
two equations hold for `Allocated`. -/
theorem cached_sums_consistent (calls : List (Call R)) :
    ResourceConsistent (run (NewLeaderResource : LeaderResource R) calls).Topology ∧
      AllocatedConsistent (run (NewLeaderResource : LeaderResource R) calls).Topology := by
  apply run_consistent calls NewLeaderResource
  constructor
  · refine ⟨rfl, ?_⟩
    intro d hd
    simp [NewLeaderResource] at hd
  · refine ⟨rfl, ?_⟩
    intro d hd
    simp [NewLeaderResource] at hd

end CrossLevel

section Keys

variable {R : Type}

/-- The lookup reads the topology only. -/
theorem findAgentInformation_congr (l l1 : LeaderResource R) (location : Location)
    (h : l1.Topology = l.Topology) :
    findAgentInformation l1 location = findAgentInformation l location := by
  unfold findAgentInformation
  rw [h]

/-- In a well-keyed topology the entry found at a location carries that
location. -/
theorem location_of_find (l : LeaderResource R) (location : Location) (ai : AgentInformation R)
    (hk : WellKeyed l.Topology) (h : findAgentInformation l location = some ai) :
    ai.Location = location := by
  cases hd : l.Topology.dataCenters.lookup location.DataCenter with
  | none => simp [findAgentInformation, hd] at h
  | some dc =>
    cases hr : dc.racks.lookup location.Rack with
    | none => simp [findAgentInformation, hd, hr] at h
    | some rack =>
      have ha : rack.agents.lookup location.URL = some ai := by
        simpa [findAgentInformation, hd, hr] using h
      have := hk _ (mem_entries_of_lookup _ _ _ hd) _ (mem_entries_of_lookup _ _ _ hr) _
        (mem_entries_of_lookup _ _ _ ha)
      simpa [Location.URL] using this

variable [AddCommGroup R]

/-- The empty tracker is well keyed. -/
theorem NewLeaderResource_wellKeyed : WellKeyed (NewLeaderResource : LeaderResource R).Topology := by
  intro d hd
  simp [NewLeaderResource] at hd

variable [DecidableEq R]

/-- The stored entry of an update carries the location of the entry it
replaces, or that of the report. -/
theorem storedEntry_Location (old : Option (AgentInformation R)) (ai : AgentInformation R)
    (now : Time) :
    (storedEntry old ai now).Location =
      match old with
      | some oldInfo => oldInfo.Location
      | none => ai.Location := by
  cases old with
  | none => rfl
  | some o =>
    by_cases h : ai.Resource - o.Resource = 0 <;> simp [storedEntry, deltaResourceOf, h]

/-- An update keeps the topology well keyed. -/
theorem UpdateAgentInformation_wellKeyed (l : LeaderResource R) (ai : AgentInformation R)
    (now : Time) (hk : WellKeyed l.Topology) :
    WellKeyed (UpdateAgentInformation l ai now).Topology := by
  have hdcK : ∀ r ∈ (workingDataCenter l ai).racks.entries, ∀ a ∈ r.2.agents.entries,
      a.2.Location = { DataCenter := ai.Location.DataCenter, Rack := r.1, Address := a.1 } := by
    rcases workingDataCenter_cases l ai with hs | ⟨_, _, _, he⟩
    · exact hk _ (mem_entries_of_lookup _ _ _ hs)
    · intro r hr
      rw [he] at hr
      simp at hr
  have hrackK : ∀ a ∈ (workingRack (workingDataCenter l ai) ai).agents.entries,
      a.2.Location =
        { DataCenter := ai.Location.DataCenter, Rack := ai.Location.Rack, Address := a.1 } := by
    rcases workingRack_cases (workingDataCenter l ai) ai with hs | ⟨_, _, _, he⟩
    · exact hdcK _ (mem_entries_of_lookup _ _ _ hs)
    · intro a ha
      rw [he] at ha
      simp at ha
  intro d hd r hr a ha
  simp only [UpdateAgentInformation] at hd
  rcases mem_insert_entries _ _ _ _ hd with rfl | hd
  · simp only at hr
    rcases mem_insert_entries _ _ _ _ hr with rfl | hr
    · simp only at ha
      rcases mem_insert_entries _ _ _ _ ha with rfl | ha
      · rw [storedEntry_Location]
        cases hold : (workingRack (workingDataCenter l ai) ai).agents.lookup ai.Location.URL with
        | none => rfl
        | some o => exact hrackK _ (mem_entries_of_lookup _ _ _ hold)
      · exact hrackK a ha
    · exact hdcK r hr a ha
  · exact hk d hd r hr a ha

/-- A deletion keeps the topology well keyed. -/
theorem deleteAgentInformation_wellKeyed (l : LeaderResource R) (ai : AgentInformation R)
    (hk : WellKeyed l.Topology) : WellKeyed (deleteAgentInformation l ai).Topology := by
  rcases deleteAgentInformation_cases l ai with he | ⟨dc, rack, oldInfo, hd, hr, _, he⟩
  · rw [he]; exact hk
  · rw [he]
    intro d hd1 r hr1 a ha1
    rcases mem_insert_entries _ _ _ _ hd1 with rfl | hd1
    · simp only at hr1
      rcases mem_insert_entries _ _ _ _ hr1 with rfl | hr1
      · simp only at ha1
        exact hk _ (mem_entries_of_lookup _ _ _ hd) _ (mem_entries_of_lookup _ _ _ hr) a
          ((List.kerase_sublist _ _).subset ha1)
      · exact hk _ (mem_entries_of_lookup _ _ _ hd) r hr1 a ha1
    · exact hk d hd1 r hr1 a ha1

/-- A deletion reads and writes the topology and the events only: the queue
rides along. -/
theorem deleteAgentInformation_queue (l : LeaderResource R) (ai : AgentInformation R)
    (q : List (AgentInformation R)) :
    deleteAgentInformation { l with EvictionQueue := q } ai =
      { deleteAgentInformation l ai with EvictionQueue := q } := by
  cases hd : l.Topology.dataCenters.lookup ai.Location.DataCenter with
  | none => simp [deleteAgentInformation, hd]
  | some dc =>
    cases hr : dc.racks.lookup ai.Location.Rack with
    | none => simp [deleteAgentInformation, hd, hr]
    | some rack =>
      cases ha : rack.agents.lookup ai.Location.URL with
      | none => simp [deleteAgentInformation, hd, hr, ha]
      | some oldInfo =>
        by_cases hz : oldInfo.Resource = 0 <;> simp [deleteAgentInformation, hd, hr, ha, hz]

end Keys

section Reaper

variable {R : Type} [AddCommGroup R] [DecidableEq R]

/-- A pass that pops an entry whose location is not stored only takes the entry
off the queue. -/
theorem iteration_of_not_found (l : LeaderResource R) (popped : AgentInformation R)
    (t1 t2 t3 : Time) (h : findAgentInformation l popped.Location = none) :
    (BackgroundEvictionLoop.iteration l popped t1 t2 t3).tracker.Topology = l.Topology ∧
      (BackgroundEvictionLoop.iteration l popped t1 t2 t3).tracker.EventChan = l.EventChan ∧
      (BackgroundEvictionLoop.iteration l popped t1 t2 t3).deleted = none := by
  have h1 : findAgentInformation { l with EvictionQueue := l.EvictionQueue.erase popped }
      popped.Location = none := h
  unfold BackgroundEvictionLoop.iteration
  by_cases hq : l.EvictionQueue.length = 0
  · simp [hq]
  · simp [hq, h1]

/-- A pass over a non-empty queue that pops an entry whose location holds an
agent filed under that location: the agent is handed to
`deleteAgentInformation` exactly when its deadline is strictly before the
last reading of the clock, and the pass asks for a sleep up to the deadline
exactly when the deadline is after the first reading. -/
theorem iteration_of_found (l : LeaderResource R) (popped ai : AgentInformation R)
    (t1 t2 t3 : Time) (hq : l.EvictionQueue.length ≠ 0)
    (h : findAgentInformation l popped.Location = some ai)
    (hloc : ai.Location = popped.Location) :
    BackgroundEvictionLoop.iteration l popped t1 t2 t3 =
      { tracker :=
          if ai.LastHeartBeat + TimeOutLimit * Second < t3 then
            { deleteAgentInformation l ai with EvictionQueue := l.EvictionQueue.erase popped }
          else { l with EvictionQueue := l.EvictionQueue.erase popped }
        slept :=
          if ai.LastHeartBeat + TimeOutLimit * Second > t1 then
            some (ai.LastHeartBeat + TimeOutLimit * Second - t2)
          else none
        deleted :=
          if ai.LastHeartBeat + TimeOutLimit * Second < t3 then some ai else none } := by
  have h1 : findAgentInformation { l with EvictionQueue := l.EvictionQueue.erase popped }
      popped.Location = some ai := h
  have h2 : findAgentInformation { l with EvictionQueue := l.EvictionQueue.erase popped }
      ai.Location = some ai := by rw [hloc]; exact h
  unfold BackgroundEvictionLoop.iteration
  simp only [hq, if_false, h1, h2, deleteAgentInformation_queue]
  by_cases hx : ai.LastHeartBeat + TimeOutLimit * Second < t3 <;> simp [hx]

/-- A pass leaves the topology and the events as they are, or it deletes the
agent stored at the popped location, whose deadline has passed. -/
theorem iteration_cases (l : LeaderResource R) (popped : AgentInformation R) (t1 t2 t3 : Time)
    (hk : WellKeyed l.Topology) :
    ((BackgroundEvictionLoop.iteration l popped t1 t2 t3).tracker.Topology = l.Topology ∧
      (BackgroundEvictionLoop.iteration l popped t1 t2 t3).tracker.EventChan = l.EventChan ∧
      (BackgroundEvictionLoop.iteration l popped t1 t2 t3).deleted = none) ∨
    ∃ ai, findAgentInformation l popped.Location = some ai ∧
      ai.LastHeartBeat + TimeOutLimit * Second < t3 ∧
      (BackgroundEvictionLoop.iteration l popped t1 t2 t3).tracker.Topology =
        (deleteAgentInformation l ai).Topology ∧
      (BackgroundEvictionLoop.iteration l popped t1 t2 t3).tracker.EventChan =
        (deleteAgentInformation l ai).EventChan ∧
      (BackgroundEvictionLoop.iteration l popped t1 t2 t3).deleted = some ai := by
  by_cases hq : l.EvictionQueue.length = 0
  · left
    simp [BackgroundEvictionLoop.iteration, hq]
  · cases h : findAgentInformation l popped.Location with
    | none => exact Or.inl (iteration_of_not_found l popped t1 t2 t3 h)
    | some ai =>
      have hloc := location_of_find l popped.Location ai hk h
      rw [iteration_of_found l popped ai t1 t2 t3 hq h hloc]
      by_cases hx : ai.LastHeartBeat + TimeOutLimit * Second < t3
      · right
        exact ⟨ai, rfl, hx, by simp [hx], by simp [hx], by simp [hx]⟩
      · left
        simp [hx]

/-- A pass keeps the topology well keyed. -/
theorem iteration_wellKeyed (l : LeaderResource R) (popped : AgentInformation R)
    (t1 t2 t3 : Time) (hk : WellKeyed l.Topology) :
    WellKeyed (BackgroundEvictionLoop.iteration l popped t1 t2 t3).tracker.Topology := by
  rcases iteration_cases l popped t1 t2 t3 hk with h | ⟨ai, _, _, h, _⟩
  · rw [h.1]; exact hk
  · rw [h]; exact deleteAgentInformation_wellKeyed l ai hk

/-- Every run of reports and passes from a well-keyed tracker is well keyed. -/
theorem runSteps_wellKeyed (steps : List (Step R)) :
    ∀ l : LeaderResource R, WellKeyed l.Topology → WellKeyed (runSteps l steps).Topology := by
  induction steps with
  | nil => intro l h; exact h
  | cons s ss ih =>
    intro l h
    apply ih
    cases s with
    | update ai now => exact UpdateAgentInformation_wellKeyed l ai now h
    | reap popped t1 t2 t3 => exact iteration_wellKeyed l popped t1 t2 t3 h

/-- A pass at whose final check the agent at the popped location is young
deletes nothing. -/
theorem iteration_of_young (l : LeaderResource R) (popped : AgentInformation R)
    (t1 t2 t3 : Time) (hk : WellKeyed l.Topology) (hy : YoungAt l popped.Location t3) :
    (BackgroundEvictionLoop.iteration l popped t1 t2 t3).deleted = none ∧
      (BackgroundEvictionLoop.iteration l popped t1 t2 t3).tracker.Topology = l.Topology ∧
      (BackgroundEvictionLoop.iteration l popped t1 t2 t3).tracker.EventChan = l.EventChan := by
  rcases iteration_cases l popped t1 t2 t3 hk with h | ⟨ai, hf, hx, _⟩
  · exact ⟨h.2.2, h.1, h.2.1⟩
  · exact absurd hx (hy ai hf)

/-- A pass leaves in place a stored agent that is young at its final check,
whatever entry it pops. -/
theorem find_after_iteration_of_young (l : LeaderResource R) (popped : AgentInformation R)
    (t1 t2 t3 : Time) (location : Location) (hk : WellKeyed l.Topology)
    (hy : YoungAt l location t3) :
    findAgentInformation (BackgroundEvictionLoop.iteration l popped t1 t2 t3).tracker location =
      findAgentInformation l location := by
  rcases iteration_cases l popped t1 t2 t3 hk with h | ⟨ai, hf, hx, h, _⟩
  · exact findAgentInformation_congr _ _ location h.1
  · rw [findAgentInformation_congr _ _ location h]
    have hloc := location_of_find l popped.Location ai hk hf
    by_cases hl : location = popped.Location
    · subst hl
      exact absurd hx (hy ai hf)
    · exact find_delete_of_ne l ai location (by rw [hloc]; exact hl)

/-- A stored agent that is young at every final check of a run is stored at
its end. -/
theorem survives_run (location : Location) (steps : List (Step R)) :
    ∀ l : LeaderResource R, WellKeyed l.Topology →
      (findAgentInformation l location).isSome = true →
      YoungAtEveryReap location l steps →
      (findAgentInformation (runSteps l steps) location).isSome = true := by
  induction steps with
  | nil => intro l _ h _; exact h
  | cons s ss ih =>
    intro l hk h hy
    cases s with
    | update ai now =>
      apply ih (UpdateAgentInformation l ai now) (UpdateAgentInformation_wellKeyed l ai now hk)
      · by_cases hl : location = ai.Location
        · rw [hl, find_after_update]; rfl
        · rw [find_update_of_ne l ai now location hl]; exact h
      · exact hy
    | reap popped t1 t2 t3 =>
      apply ih (BackgroundEvictionLoop.iteration l popped t1 t2 t3).tracker
        (iteration_wellKeyed l popped t1 t2 t3 hk)
      · rw [find_after_iteration_of_young l popped t1 t2 t3 location hk hy.1]; exact h
      · exact hy.2

/-- Claim C13: a pass of the eviction loop at whose final check the agent
stored at the popped location has `LastHeartBeat` plus the timeout not
strictly before the reading of the clock does not call
`deleteAgentInformation` and leaves the topology and the events as they are;
and an agent that is young in this sense at every final check of a run of
reports and passes is still stored at the end of the run, whatever entries
the passes pop. -/
theorem heartbeat_survival (l : LeaderResource R) (hk : WellKeyed l.Topology) :
    (∀ (popped : AgentInformation R) (t1 t2 t3 : Time), YoungAt l popped.Location t3 →
      (BackgroundEvictionLoop.iteration l popped t1 t2 t3).deleted = none ∧
      (BackgroundEvictionLoop.iteration l popped t1 t2 t3).tracker.Topology = l.Topology ∧
      (BackgroundEvictionLoop.iteration l popped t1 t2 t3).tracker.EventChan = l.EventChan) ∧
    (∀ (location : Location) (steps : List (Step R)),
      (findAgentInformation l location).isSome = true →
      YoungAtEveryReap location l steps →
      (findAgentInformation (runSteps l steps) location).isSome = true) :=
  ⟨fun popped t1 t2 t3 hy => iteration_of_young l popped t1 t2 t3 hk hy,
    fun location steps h hy => survives_run location steps l hk h hy⟩

end Reaper

section Expiry

variable {R : Type} [AddCommGroup R] [DecidableEq R]

/-- Claim C14, amended: a pass of the eviction loop that pops an entry for the
location of a stored agent with a `Resource` that is not zero, and makes its
final check at a time strictly after the agent's `LastHeartBeat` plus the
timeout, hands the agent to `deleteAgentInformation`, after which the lookup
of its location fails; the pass asks for a sleep up to the deadline exactly
when the deadline is after its first reading of the clock. -/
theorem heartbeat_expiry (l : LeaderResource R) (popped ai : AgentInformation R)
    (t1 t2 t3 : Time) (hk : WellKeyed l.Topology) (hq : popped ∈ l.EvictionQueue)
    (h : findAgentInformation l popped.Location = some ai) (hz : ai.Resource ≠ 0)
    (hx : ai.LastHeartBeat + TimeOutLimit * Second < t3) :
    (BackgroundEvictionLoop.iteration l popped t1 t2 t3).deleted = some ai ∧
      findAgentInformation (BackgroundEvictionLoop.iteration l popped t1 t2 t3).tracker
        popped.Location = none ∧
      (BackgroundEvictionLoop.iteration l popped t1 t2 t3).slept =
        if ai.LastHeartBeat + TimeOutLimit * Second > t1 then
          some (ai.LastHeartBeat + TimeOutLimit * Second - t2)
        else none := by
  have hloc := location_of_find l popped.Location ai hk h
  have hlen : l.EvictionQueue.length ≠ 0 := by
    intro h0
    rw [List.length_eq_zero] at h0
    rw [h0] at hq
    simp at hq
  rw [iteration_of_found l popped ai t1 t2 t3 hlen h hloc]
  refine ⟨by simp [hx], ?_, rfl⟩
  simp only [hx, if_true]
  change findAgentInformation (deleteAgentInformation l ai) popped.Location = none
  rw [← hloc]
  exact find_after_delete_of_nonzero l ai ai (by rw [hloc]; exact h) hz

/-- Passes that pop entries of a location at which nothing is stored leave the
topology and the events as they are. -/
theorem reaps_after_gone (location : Location) (steps : List (Step R)) :
    ∀ l : LeaderResource R,
      (∀ s ∈ steps, ∃ popped t1 t2 t3,
        s = Step.reap popped t1 t2 t3 ∧ popped.Location = location) →
      findAgentInformation l location = none →
      (runSteps l steps).Topology = l.Topology ∧ (runSteps l steps).EventChan = l.EventChan := by
  induction steps with
  | nil => intro l _ _; exact ⟨rfl, rfl⟩
  | cons s ss ih =>
    intro l hs hf
    obtain ⟨popped, t1, t2, t3, rfl, hp⟩ := hs s (List.mem_cons_self _ _)
    have hit := iteration_of_not_found l popped t1 t2 t3 (by rw [hp]; exact hf)
    have hf1 : findAgentInformation
        (BackgroundEvictionLoop.iteration l popped t1 t2 t3).tracker location = none := by
      rw [findAgentInformation_congr l _ location hit.1]; exact hf
    have := ih (BackgroundEvictionLoop.iteration l popped t1 t2 t3).tracker
      (fun s hs1 => hs s (List.mem_cons_of_mem _ hs1)) hf1
    exact ⟨this.1.trans hit.1, this.2.trans hit.2.1⟩

/-- The result of a deletion depends on the topology and the events only. -/
theorem deleteAgentInformation_congr (l l1 : LeaderResource R) (ai : AgentInformation R)
    (hT : l1.Topology = l.Topology) (hE : l1.EventChan = l.EventChan) :
    (deleteAgentInformation l1 ai).Topology = (deleteAgentInformation l ai).Topology ∧
      (deleteAgentInformation l1 ai).EventChan = (deleteAgentInformation l ai).EventChan := by
  have h1 : l1 = { l with EvictionQueue := l1.EvictionQueue } := by
    cases l1; cases l
    simp only at hT hE
    subst hT; subst hE
    rfl
  rw [h1, deleteAgentInformation_queue]
  exact ⟨rfl, rfl⟩

/-- Passes that pop entries of one location delete the agent stored there at
most once: the run ends with the topology and events it started with, or with
those of one deletion of that agent. -/
theorem evicted_at_most_once (location : Location) (steps : List (Step R)) :
    ∀ l : LeaderResource R, WellKeyed l.Topology →
      (∀ s ∈ steps, ∃ popped t1 t2 t3,
        s = Step.reap popped t1 t2 t3 ∧ popped.Location = location) →
      ((runSteps l steps).Topology = l.Topology ∧
        (runSteps l steps).EventChan = l.EventChan) ∨
      ∃ ai, findAgentInformation l location = some ai ∧
        (runSteps l steps).Topology = (deleteAgentInformation l ai).Topology ∧
        (runSteps l steps).EventChan = (deleteAgentInformation l ai).EventChan := by
  induction steps with
  | nil => intro l _ _; exact Or.inl ⟨rfl, rfl⟩
  | cons s ss ih =>
    intro l hk hs
    obtain ⟨popped, t1, t2, t3, rfl, hp⟩ := hs s (List.mem_cons_self _ _)
    have hss : ∀ s ∈ ss, ∃ popped t1 t2 t3,
        s = Step.reap popped t1 t2 t3 ∧ popped.Location = location :=
      fun s hs1 => hs s (List.mem_cons_of_mem _ hs1)
    have hk1 := iteration_wellKeyed l popped t1 t2 t3 hk
    have hsame : ∀ (hT : (BackgroundEvictionLoop.iteration l popped t1 t2 t3).tracker.Topology =
          l.Topology)
        (hE : (BackgroundEvictionLoop.iteration l popped t1 t2 t3).tracker.EventChan =
          l.EventChan),
        ((runSteps l (Step.reap popped t1 t2 t3 :: ss)).Topology = l.Topology ∧
          (runSteps l (Step.reap popped t1 t2 t3 :: ss)).EventChan = l.EventChan) ∨
        ∃ ai, findAgentInformation l location = some ai ∧
          (runSteps l (Step.reap popped t1 t2 t3 :: ss)).Topology =
            (deleteAgentInformation l ai).Topology ∧
          (runSteps l (Step.reap popped t1 t2 t3 :: ss)).EventChan =
            (deleteAgentInformation l ai).EventChan := by
      intro hT hE
      rcases ih _ hk1 hss with h | ⟨ai, hf, hT1, hE1⟩
      · exact Or.inl ⟨h.1.trans hT, h.2.trans hE⟩
      · have hc := deleteAgentInformation_congr l _ ai hT hE
        exact Or.inr ⟨ai, by rw [← findAgentInformation_congr l _ location hT]; exact hf,
          hT1.trans hc.1, hE1.trans hc.2⟩
    rcases iteration_cases l popped t1 t2 t3 hk with h | ⟨ai, hf, _, hT, hE, _⟩
    · exact hsame h.1 h.2.1
    · have hloc := location_of_find l popped.Location ai hk hf
      by_cases hz : ai.Resource = 0
      · have hd := deleteAgentInformation_of_zero_found l ai ai (by rw [hloc]; exact hf) hz
        rw [hd] at hT hE
        exact hsame hT hE
      · have hgone : findAgentInformation
            (BackgroundEvictionLoop.iteration l popped t1 t2 t3).tracker location = none := by
          rw [findAgentInformation_congr (deleteAgentInformation l ai) _ location hT, ← hp,
            ← hloc]
          exact find_after_delete_of_nonzero l ai ai (by rw [hloc]; exact hf) hz
        have hrest := reaps_after_gone location ss _ hss hgone
        exact Or.inr ⟨ai, by rw [← hp]; exact hf, hrest.1.trans hT, hrest.2.trans hE⟩

/-- Claim C15: passes of the eviction loop that pop, in any order and at any
clock readings, the queue entries of one location delete the agent stored
there at most once, so its `Resource` and `Allocated` leave the sums at most
once and at most one event is sent for it; and a pass that pops an entry whose
location is not stored leaves the topology unchanged. -/
theorem lazy_queue_evicts_once (l : LeaderResource R) (hk : WellKeyed l.Topology) :
    (∀ (location : Location) (steps : List (Step R)),
      (∀ s ∈ steps, ∃ popped t1 t2 t3,
        s = Step.reap popped t1 t2 t3 ∧ popped.Location = location) →
      ((runSteps l steps).Topology = l.Topology ∧
        (runSteps l steps).EventChan = l.EventChan) ∨
      ∃ ai, findAgentInformation l location = some ai ∧
        (runSteps l steps).Topology = (deleteAgentInformation l ai).Topology ∧
        (runSteps l steps).EventChan = (deleteAgentInformation l ai).EventChan) ∧
    (∀ (popped : AgentInformation R) (t1 t2 t3 : Time),
      findAgentInformation l popped.Location = none →
      (BackgroundEvictionLoop.iteration l popped t1 t2 t3).tracker.Topology = l.Topology ∧
      (BackgroundEvictionLoop.iteration l popped t1 t2 t3).tracker.EventChan = l.EventChan ∧
      (BackgroundEvictionLoop.iteration l popped t1 t2 t3).deleted = none) :=
  ⟨fun location steps hs => evicted_at_most_once location steps l hk hs,
    fun popped t1 t2 t3 h => iteration_of_not_found l popped t1 t2 t3 h⟩

end Expiry

section Reachable

variable {R : Type} [AddCommGroup R] [DecidableEq R]

/-- Every tracker reached from the empty one by calls is well keyed. -/
theorem run_wellKeyed (calls : List (Call R)) :
    ∀ l : LeaderResource R, WellKeyed l.Topology → WellKeyed (run l calls).Topology := by
  induction calls with
  | nil => intro l h; exact h
  | cons c cs ih =>
    intro l h
    apply ih
    cases c with
    | update ai now => exact UpdateAgentInformation_wellKeyed l ai now h
    | delete ai => exact deleteAgentInformation_wellKeyed l ai h

/-- Every tracker reached from the empty one by reports and passes of the
eviction loop is well keyed. -/
theorem reachable_wellKeyed (steps : List (Step R)) :
    WellKeyed (runSteps (NewLeaderResource : LeaderResource R) steps).Topology :=
  runSteps_wellKeyed steps NewLeaderResource NewLeaderResource_wellKeyed

end Reachable

/-- Claim C14 as stated fails: agent A, registered at time 100 with `{cpu:4}`
and never updated, is popped; the loop sleeps the 5 nanoseconds up to the
deadline and makes its final check at the deadline itself, a time at or after
`LastHeartBeat` plus the timeout.  The agent is not deleted and the lookup
still finds it.  Registered with a zero `Resource` instead and checked after
the deadline, the agent is handed to `deleteAgentInformation` and the lookup
still finds it. -/
theorem expiry_at_deadline_keeps_agent :
    (storedA ∈ tracker1.EvictionQueue ∧
      findAgentInformation tracker1 storedA.Location = some storedA ∧
      storedA.LastHeartBeat + TimeOutLimit * Second ≤ deadlineA ∧
      (BackgroundEvictionLoop.iteration tracker1 storedA (deadlineA - 5) (deadlineA - 5)
        deadlineA).slept = some 5 ∧
      (BackgroundEvictionLoop.iteration tracker1 storedA (deadlineA - 5) (deadlineA - 5)
        deadlineA).deleted = none ∧
      findAgentInformation
        (BackgroundEvictionLoop.iteration tracker1 storedA (deadlineA - 5) (deadlineA - 5)
          deadlineA).tracker locationA = some storedA) ∧
    (findAgentInformation (UpdateAgentInformation tracker0 (reportA 0 0) 100) locationA =
        some { reportA 0 0 with LastHeartBeat := 100 } ∧
      (BackgroundEvictionLoop.iteration (UpdateAgentInformation tracker0 (reportA 0 0) 100)
        { reportA 0 0 with LastHeartBeat := 100 } (deadlineA - 5) (deadlineA - 5)
        (deadlineA + 1)).deleted = some { reportA 0 0 with LastHeartBeat := 100 } ∧
      findAgentInformation
        (BackgroundEvictionLoop.iteration (UpdateAgentInformation tracker0 (reportA 0 0) 100)
          { reportA 0 0 with LastHeartBeat := 100 } (deadlineA - 5) (deadlineA - 5)
          (deadlineA + 1)).tracker locationA =
        some { reportA 0 0 with LastHeartBeat := 100 }) := by
  decide

/-- Agent A, registered at time 100 and never updated, is deleted by a pass
whose final check comes one nanosecond after the deadline, an instance of the
amended claim C14. -/
theorem heartbeat_expiry_witness :
    WellKeyed tracker1.Topology ∧
      storedA ∈ tracker1.EvictionQueue ∧
      findAgentInformation tracker1 storedA.Location = some storedA ∧
      storedA.Resource ≠ 0 ∧
      storedA.LastHeartBeat + TimeOutLimit * Second < deadlineA + 1 ∧
      findAgentInformation
        (BackgroundEvictionLoop.iteration tracker1 storedA (deadlineA - 5) (deadlineA - 5)
          (deadlineA + 1)).tracker storedA.Location = none :=
  ⟨by decide, by decide, by decide, by decide, by decide,
    (heartbeat_expiry tracker1 storedA storedA (deadlineA - 5) (deadlineA - 5) (deadlineA + 1)
      (by decide) (by decide) (by decide) (by decide) (by decide)).2.1⟩

/-- Agent A, refreshed at time 105, survives the pass that pops its stale entry
of time 100 one nanosecond after that entry's deadline, an instance of claim
C13. -/
theorem heartbeat_survival_witness :
    WellKeyed tracker2.Topology ∧
      YoungAt tracker2 storedA.Location (deadlineA + 1) ∧
      (BackgroundEvictionLoop.iteration tracker2 storedA (deadlineA - 5) (deadlineA - 5)
        (deadlineA + 1)).deleted = none :=
  have hy : YoungAt tracker2 storedA.Location (deadlineA + 1) := by
    intro ai h
    have hx : findAgentInformation tracker2 storedA.Location =
        some { reportA 6 0 with LastHeartBeat := 105 } := by decide
    rw [hx] at h
    cases h
    decide
  ⟨by decide, hy,
    ((heartbeat_survival tracker2 (by decide)).1 storedA (deadlineA - 5) (deadlineA - 5)
      (deadlineA + 1) hy).1⟩

/-- The two queue entries of agent A in the tracker after its update, both
popped after the deadline, end in the topology and events of one deletion:
  an instance of claim C15. -/
theorem lazy_queue_evicts_once_witness :
    WellKeyed tracker2.Topology ∧
      (((runSteps tracker2
          [Step.reap storedA 0 0 (deadlineA + 10), Step.reap (reportA 6 0) 0 0
            (deadlineA + 20)]).Topology = tracker2.Topology ∧
        (runSteps tracker2
          [Step.reap storedA 0 0 (deadlineA + 10), Step.reap (reportA 6 0) 0 0
            (deadlineA + 20)]).EventChan = tracker2.EventChan) ∨
      ∃ ai, findAgentInformation tracker2 locationA = some ai ∧
        (runSteps tracker2
          [Step.reap storedA 0 0 (deadlineA + 10), Step.reap (reportA 6 0) 0 0
            (deadlineA + 20)]).Topology = (deleteAgentInformation tracker2 ai).Topology ∧
        (runSteps tracker2
          [Step.reap storedA 0 0 (deadlineA + 10), Step.reap (reportA 6 0) 0 0
            (deadlineA + 20)]).EventChan = (deleteAgentInformation tracker2 ai).EventChan) :=
  ⟨by decide,
    (lazy_queue_evicts_once tracker2 (by decide)).1 locationA
      [Step.reap storedA 0 0 (deadlineA + 10), Step.reap (reportA 6 0) 0 0 (deadlineA + 20)]
      (by
        intro s hs
        simp only [List.mem_cons, List.mem_singleton, List.not_mem_nil, or_false] at hs
        rcases hs with rfl | rfl
        · exact ⟨_, _, _, _, rfl, rfl⟩
        · exact ⟨_, _, _, _, rfl, rfl⟩)⟩

end Glow
